import Mathlib

/-!
# JSON-RPC 2.0 client/server runtime (package `jsonrpc`)

A shallow embedding of `type.go`, `server.go` and `client.go`.

* Go strings and byte slices are Lean strings; a byte slice that may be `nil`
  is an `Option String` (`none` is the nil slice).
* An `interface{}` is an `Option GoValue` (`none` is the nil interface).
* A function with a deferred closure is split in two: `F.body` runs the
  statements up to the `return` and yields the variables the closure reads,
  `F.deferred` is the closure, and `F` composes them.
* The standard library (`encoding/json`, `net/http`, `io`) is not part of the
  package: every call into it goes through a `GoLib` record, and the theorems
  hold for every such record.
* Handler functions and transports are total functions; a handler that panics
  or never returns is outside the model.
* A Go panic of the package itself (a failed type assertion) is an `.error`
  result, or `Completion.panicked`.
* `Client.Request` is embedded twice: as a function, for one caller at a time
  (`Client.Request`, with the timer goroutine it launches), and as a step
  function over interleavings of callers and timers (`Sys.step`).
-/

set_option linter.dupNamespace false

namespace jsonrpc

/-! ## Go values -/

/-- Dynamic Go values held in an `interface{}`, as far as the package tells
them apart: it asserts `int` and `float64` on ids, and otherwise stores them,
compares them with nil and hands them to the encoder. `other` stands for any
value of another dynamic type (struct, slice, map, channel, ...). -/
inductive GoValue where
  | int (n : Int)
  | float64 (x : Rat)
  | string (s : String)
  | bool (b : Bool)
  | other (tag : Nat)
  deriving DecidableEq, Repr

/-- The descriptor `reflect.TypeOf` yields. -/
inductive GoType where
  | int
  | float64
  | string
  | bool
  | other (tag : Nat)
  deriving DecidableEq, Repr

/-- Go `reflect.TypeOf`. -/
def GoValue.TypeOf : GoValue → GoType
  | .int _ => .int
  | .float64 _ => .float64
  | .string _ => .string
  | .bool _ => .bool
  | .other tag => .other tag

/-- A Go slice: `none` is the nil slice, `some xs` a non-nil slice of elements `xs`. -/
abbrev Slice (α : Type) := Option (List α)

/-- Go `make([]T, 0)`: an empty slice that is not nil. -/
def Slice.make0 {α : Type} : Slice α := some []

/-- Go `append(s, x)`: never nil. -/
def Slice.append {α : Type} (s : Slice α) (x : α) : Slice α := some (s.getD [] ++ [x])

/-- Go `len(s)`. -/
def Slice.len {α : Type} (s : Slice α) : Nat := (s.getD []).length

/-! ## type.go -/

/-- The `Error` struct (`Code` is an `int32`; the package does no arithmetic on it). -/
structure Error where
  Code : Int
  Message : String
  Data : Option GoValue
  deriving DecidableEq, Repr

/-- The method `func (e Error) Error() string`. -/
def Error.Error (e : Error) : String :=
  "code: " ++ toString e.Code ++ "; message: \"" ++ e.Message ++ "\""

/-- The `Request` struct. `Params` is a `json.RawMessage`. -/
structure Request where
  Jsonrpc : String
  Id : Option GoValue
  Method : String
  Params : Option String
  deriving DecidableEq, Repr

/-- The `Response` struct. `Result` is a `json.RawMessage`, `Error` a `*Error`. -/
structure Response where
  Jsonrpc : String
  Id : Option GoValue
  Result : Option String
  Error : Option Error
  deriving DecidableEq, Repr

/-- The zero value `Response{}`. -/
def Response.zero : Response :=
  { Jsonrpc := "", Id := none, Result := none, Error := none }

/-- A non-nil Go `error`, by dynamic type: the type assertion `err.(*Error)`
succeeds exactly on `rpc`. -/
inductive GoError where
  /-- dynamic type `*Error`; `none` is a nil pointer inside a non-nil interface -/
  | rpc (p : Option Error)
  /-- dynamic type `Error`, passed by value -/
  | errorValue (e : Error)
  /-- any other dynamic type, with the text its `Error()` returns -/
  | other (msg : String)
  deriving DecidableEq, Repr

/-- The `Error()` method of an `error`. On a nil `*Error` Go faults; the
package never calls it there. -/
def GoError.Error : GoError → String
  | .rpc (some e) => e.Error
  | .rpc none => ""
  | .errorValue e => e.Error
  | .other msg => msg

/-- The type `HandlerFunc func(interface{}) (interface{}, error)`. -/
abbrev HandlerFunc := Option GoValue → Option GoValue × Option GoError

/-- The `Handler` struct. -/
structure Handler where
  Request : Option GoType
  Response : Option GoType
  Function : HandlerFunc

/-! ## The standard library -/

/-- What the package passes to `json.Marshal`. -/
inductive GoAny where
  | value (v : Option GoValue)
  | request (r : Request)
  | requests (rs : List Request)
  | response (r : Response)
  | responses (rs : List Response)
  deriving DecidableEq, Repr

/-- A `*http.Response` that `http.Post` returned. -/
structure HttpResponse where
  handle : Nat
  deriving DecidableEq, Repr

/-- The calls the package makes into the Go standard library. An `error`
result is kept as the text of its `Error()`. -/
structure GoLib where
  /-- `json.Valid` -/
  Valid : String → Bool
  /-- `json.Marshal`; on failure Go returns nil bytes -/
  Marshal : GoAny → Except String String
  /-- `json.Unmarshal` into a zero `Request` -/
  UnmarshalRequest : String → Except String Request
  /-- `json.Unmarshal` into an empty `[]Request` -/
  UnmarshalRequests : String → Except String (List Request)
  /-- `json.Unmarshal` into a zero `Response` -/
  UnmarshalResponse : Option String → Except String Response
  /-- `json.Unmarshal` into a nil `[]Response` -/
  UnmarshalResponses : Option String → Except String (List Response)
  /-- `json.Unmarshal` into a fresh value of the given type, which it returns -/
  Unmarshal : GoType → Option String → Except String GoValue
  /-- `http.Post url contentType body` -/
  Post : String → String → String → Except String HttpResponse
  /-- `io.ReadAll` on the body: the bytes read and the error, if any -/
  ReadAll : HttpResponse → Option String × Option String

/-- The bytes `json.Marshal` hands back: nil when it fails. -/
def GoLib.marshalBytes (lib : GoLib) (v : GoAny) : Option String :=
  match lib.Marshal v with
  | .ok b => some b
  | .error _ => none

/-- The Response the deferred closures of `Server.Handler` and
`ClientTransportHttp.Execute` build: version "2.0", nil id, no result, and an
Error with the text of the Go error as data. -/
def errorResponse (c : Int) (m d : String) : Response :=
  { Jsonrpc := "2.0", Id := none, Result := none,
    Error := some { Code := c, Message := m, Data := some (.string d) } }

/-! ## server.go -/

/-- The `Server` struct: `HandlerMap` is a `map[string]Handler`. -/
structure Server where
  HandlerMap : String → Option Handler

/-- `NewServer`. -/
def NewServer : Server :=
  { HandlerMap := fun _ => none }

/-- `Server.HandleFunc`. -/
def Server.HandleFunc (s : Server) (method : String) (handle : HandlerFunc)
    (request response : Option GoValue) : Server :=
  { HandlerMap := fun m =>
      if m = method then
        some { Request := request.map GoValue.TypeOf,
               Response := response.map GoValue.TypeOf,
               Function := handle }
      else s.HandlerMap m }

/-- The named result and the locals of `Server.Call` that its deferred closure reads. -/
structure CallFrame where
  response : Option Response
  responseResult : Option GoValue
  responseError : Option Error

/-- `Server.Call`, lines 99-113: the params handed to the handler function. -/
def Server.Call.decodeParams (lib : GoLib) (handler : Handler) (request : Request) :
    Except String (Option GoValue) :=
  match handler.Request with
  | none => .ok none
  | some t =>
    match lib.Unmarshal t request.Params with
    | .error e => .error e
    | .ok v => .ok (some v)

/-- `Server.Call`, lines 75-129: the statements up to each `return`. -/
def Server.Call.body (lib : GoLib) (s : Server) (request : Request) : CallFrame :=
  if request.Jsonrpc ≠ "2.0" then
    { response := some Response.zero
      responseResult := none
      responseError := some { Code := -32600, Message := "Invalid Request",
                              Data := some (.string "Invalid JsonRPC version") } }
  else
    let response := if request.Id.isSome then some Response.zero else none
    match s.HandlerMap request.Method with
    | none =>
      { response := response
        responseResult := none
        responseError := some { Code := -32601, Message := "Method not found",
                                Data := some (.string request.Method) } }
    | some handler =>
      match Server.Call.decodeParams lib handler request with
      | .error e =>
        { response := response
          responseResult := none
          responseError := some { Code := -32602, Message := "Invalid params",
                                  Data := some (.string e) } }
      | .ok requestParams =>
        match handler.Function requestParams with
        | (responseResult, none) =>
          { response := response, responseResult := responseResult, responseError := none }
        | (responseResult, some (.rpc p)) =>
          { response := response, responseResult := responseResult, responseError := p }
        | (responseResult, some err) =>
          { response := response
            responseResult := responseResult
            responseError := some { Code := -32603, Message := "Internal error",
                                    Data := some (.string err.Error) } }

/-- `Server.Call`, lines 45-73: the deferred closure. -/
def Server.Call.deferred (lib : GoLib) (request : Request) (f : CallFrame) : Option Response :=
  match f.response with
  | none => none
  | some response =>
    let response := { response with Jsonrpc := request.Jsonrpc, Id := request.Id }
    match f.responseResult, f.responseError with
    | some responseResult, none =>
      match lib.Marshal (.value (some responseResult)) with
      | .error _ =>
        some { response with
          Error := some { Code := -32603, Message := "Internal error", Data := none } }
      | .ok jsonRawMessage => some { response with Result := some jsonRawMessage }
    | none, none =>
      some { response with
        Error := some { Code := -32603, Message := "Internal error", Data := none } }
    | _, some responseError => some { response with Error := some responseError }

/-- `Server.Call`. -/
def Server.Call (lib : GoLib) (s : Server) (request : Request) : Option Response :=
  Server.Call.deferred lib request (Server.Call.body lib s request)

/-- The named result and the locals of `Server.Handler` that its deferred closure reads. -/
structure HandlerFrame where
  response : Option String
  errorObject : Option String
  unmarshalError : Bool
  deriving DecidableEq, Repr

/-- `Server.Handler`, lines 195-201: the loop over the decoded batch. -/
def Server.Handler.collect (lib : GoLib) (s : Server) (requestArrayStruct : List Request) :
    Slice Response :=
  requestArrayStruct.foldl
    (fun responseArrayStruct requestStruct =>
      match s.Call lib requestStruct with
      | some responseStruct => responseArrayStruct.append responseStruct
      | none => responseArrayStruct)
    Slice.make0

/-- `Server.Handler`, lines 220-228: encode `responseInterface` unless it is nil. -/
def Server.Handler.encode (lib : GoLib) (responseInterface : Option GoAny) : HandlerFrame :=
  match responseInterface with
  | none => { response := none, errorObject := none, unmarshalError := false }
  | some v =>
    match lib.Marshal v with
    | .error e => { response := none, errorObject := some e, unmarshalError := false }
    | .ok b => { response := some b, errorObject := none, unmarshalError := false }

/-- `Server.Handler`, lines 173-228: the statements up to each `return`. -/
def Server.Handler.body (lib : GoLib) (s : Server) (request : String) : HandlerFrame :=
  if request.length = 0 then
    { response := none, errorObject := some "Empty request", unmarshalError := true }
  else
    let isBatch : Bool := request.data.head? = some '['
    if isBatch then
      match lib.UnmarshalRequests request with
      | .error e => { response := none, errorObject := some e, unmarshalError := true }
      | .ok requestArrayStruct =>
        if requestArrayStruct.length = 0 then
          { response := none, errorObject := some "Empty request", unmarshalError := true }
        else
          let responseArrayStruct := Server.Handler.collect lib s requestArrayStruct
          Server.Handler.encode lib
            (match responseArrayStruct with
             | some rs => some (.responses rs)
             | none => none)
    else
      match lib.UnmarshalRequest request with
      | .error e => { response := none, errorObject := some e, unmarshalError := true }
      | .ok requestStruct =>
        Server.Handler.encode lib
          (match s.Call lib requestStruct with
           | some responseStruct => some (.response responseStruct)
           | none => none)

/-- `Server.Handler`, lines 138-171: the deferred closure. -/
def Server.Handler.deferred (lib : GoLib) (request : String) (f : HandlerFrame) :
    Option String :=
  match f.errorObject with
  | none => f.response
  | some msg =>
    let responseError : Error :=
      if f.unmarshalError then
        if lib.Valid request then
          { Code := -32600, Message := "Invalid Request", Data := some (.string msg) }
        else
          { Code := -32700, Message := "Parse error", Data := some (.string msg) }
      else
        { Code := -32603, Message := "Internal error", Data := some (.string msg) }
    lib.marshalBytes
      (.response { Jsonrpc := "2.0", Id := none, Result := none, Error := some responseError })

/-- `Server.Handler`. -/
def Server.Handler (lib : GoLib) (s : Server) (request : String) : Option String :=
  Server.Handler.deferred lib request (Server.Handler.body lib s request)

/-! ## client.go -/

/-- The `ClientTransportHttp` struct. -/
structure ClientTransportHttp where
  endpoint : String

/-- The locals of `ClientTransportHttp.Execute` that its deferred closure reads. -/
structure ExecuteFrame where
  err : Option String
  requestBuffer : Option String
  httpResponse : Option HttpResponse
  response : Option String
  deriving DecidableEq, Repr

/-- `ClientTransportHttp.Execute`, lines 62-84: the statements up to each `return`. -/
def ClientTransportHttp.Execute.body (lib : GoLib) (ct : ClientTransportHttp)
    (request : String) : ExecuteFrame :=
  if ¬ lib.Valid request then
    { err := some request, requestBuffer := none, httpResponse := none, response := none }
  else
    let requestBuffer := some request
    match lib.Post ct.endpoint "application/json" request with
    | .error e =>
      { err := some e, requestBuffer := requestBuffer, httpResponse := none, response := none }
    | .ok httpResponse =>
      match lib.ReadAll httpResponse with
      | (response, some e) =>
        { err := some e, requestBuffer := requestBuffer, httpResponse := some httpResponse,
          response := response }
      | (response, none) =>
        if ¬ lib.Valid (response.getD "") then
          { err := some (response.getD ""), requestBuffer := requestBuffer,
            httpResponse := some httpResponse, response := none }
        else
          { err := none, requestBuffer := requestBuffer, httpResponse := some httpResponse,
            response := response }

/-- `ClientTransportHttp.Execute`, lines 29-60: the deferred closure. -/
def ClientTransportHttp.Execute.deferred (lib : GoLib) (f : ExecuteFrame) : Option String :=
  match f.err with
  | none => f.response
  | some msg =>
    let responseError : Error :=
      if f.requestBuffer.isNone then
        { Code := -32600, Message := "Invalid Request", Data := some (.string msg) }
      else if f.httpResponse.isNone || f.response.isNone then
        { Code := -32000, Message := "Server error", Data := some (.string msg) }
      else
        { Code := -32603, Message := "Internal error", Data := some (.string msg) }
    lib.marshalBytes
      (.response { Jsonrpc := "2.0", Id := none, Result := none, Error := some responseError })

/-- `ClientTransportHttp.Execute`. -/
def ClientTransportHttp.Execute (lib : GoLib) (ct : ClientTransportHttp) (request : String) :
    Option String :=
  ClientTransportHttp.Execute.deferred lib (ClientTransportHttp.Execute.body lib ct request)

/-- A `chan Response`, kept as the Responses sent on it, oldest first. -/
abbrev Chan := List Response

/-- A Go `int` after an arithmetic operation: the result is reduced to the 64
bits the type has on linux/amd64, so it wraps on overflow. -/
def wrapInt (n : Int) : Int :=
  (n + 9223372036854775808) % 18446744073709551616 - 9223372036854775808

/-- The `Client` struct. `transport` is the `Execute` of its `ClientTransport`;
`batchResponseMap` is a `map[int]chan Response`, `none` where the key is
absent; `batchMutex` is left to the scheduler (see `Sys`). `callId` is a Go
`int`: arithmetic on it goes through `wrapInt`. -/
structure Client where
  transport : String → Option String
  callId : Int
  batchIsRun : Bool
  batchRequestArray : List Request
  batchResponseMap : Int → Option Chan

/-- `NewClient`. -/
def NewClient (transport : String → Option String) : Client :=
  { transport := transport, callId := 1, batchIsRun := false, batchRequestArray := [],
    batchResponseMap := fun _ => none }

/-- `NewClientHttp`. -/
def NewClientHttp (lib : GoLib) (endpoint : String) : Client :=
  NewClient (ClientTransportHttp.Execute lib { endpoint := endpoint })

/-- The `request interface{}` argument of `Client.RawRequest`, by dynamic type. -/
inductive RawInput where
  | batch (requestBatch : List Request)
  | single (requestSingle : Request)
  | unknown (v : Option GoValue)
  deriving DecidableEq, Repr

/-- The `response interface{}` result of `Client.RawRequest`, by dynamic type. -/
inductive RawOutput where
  | batch (responseBatch : List Response)
  | single (responseSingle : Response)
  deriving DecidableEq, Repr

/-- The locals of `Client.RawRequest` that its deferred closure reads. -/
structure RawFrame where
  err : Option String
  requestByte : Option String
  responseByte : Option String
  response : Option RawOutput
  deriving DecidableEq, Repr

/-- `Client.RawRequest`, lines 155-185: the statements up to each `return`. -/
def Client.RawRequest.body (lib : GoLib) (c : Client) (request : RawInput) : RawFrame :=
  match request with
  | .unknown _ =>
    { err := some "Unknown request type", requestByte := none, responseByte := none,
      response := none }
  | .batch requestBatch =>
    match lib.Marshal (.requests requestBatch) with
    | .error e => { err := some e, requestByte := none, responseByte := none, response := none }
    | .ok requestByte =>
      let responseByte := c.transport requestByte
      match lib.UnmarshalResponses responseByte with
      | .error e =>
        { err := some e, requestByte := some requestByte, responseByte := responseByte,
          response := none }
      | .ok responseBatch =>
        { err := none, requestByte := some requestByte, responseByte := responseByte,
          response := some (.batch responseBatch) }
  | .single requestSingle =>
    match lib.Marshal (.request requestSingle) with
    | .error e => { err := some e, requestByte := none, responseByte := none, response := none }
    | .ok requestByte =>
      let responseByte := c.transport requestByte
      match lib.UnmarshalResponse responseByte with
      | .error e =>
        { err := some e, requestByte := some requestByte, responseByte := responseByte,
          response := none }
      | .ok responceSingle =>
        { err := none, requestByte := some requestByte, responseByte := responseByte,
          response := some (.single responceSingle) }

/-- The zero value `Request{}`. -/
def Request.zero : Request :=
  { Jsonrpc := "", Id := none, Method := "", Params := none }

/-- `Client.RawRequest`, lines 119-153: the deferred closure. -/
def Client.RawRequest.deferred (request : RawInput) (f : RawFrame) : Option RawOutput :=
  match f.err with
  | none => f.response
  | some msg =>
    let jsonrpcError : Error :=
      if f.requestByte.isNone || f.responseByte.isNone then
        { Code := -32603, Message := "Internal error", Data := some (.string msg) }
      else
        { Code := 0, Message := "", Data := none }
    match request with
    | .batch requestBatch =>
      some (.batch
        ((requestBatch.filter (fun requestObject => requestObject.Id.isSome)).map
          (fun requestObject =>
            { Jsonrpc := requestObject.Jsonrpc, Id := requestObject.Id, Result := none,
              Error := some jsonrpcError })))
    | .single requestSingle =>
      some (.single
        { Jsonrpc := requestSingle.Jsonrpc, Id := requestSingle.Id, Result := none,
          Error := some jsonrpcError })
    | .unknown _ =>
      some (.single
        { Jsonrpc := Request.zero.Jsonrpc, Id := Request.zero.Id, Result := none,
          Error := some jsonrpcError })

/-- `Client.RawRequest`: the result is `none` when the interface it returns is nil. -/
def Client.RawRequest (lib : GoLib) (c : Client) (request : RawInput) : Option RawOutput :=
  Client.RawRequest.deferred request (Client.RawRequest.body lib c request)

/-- What a `Client.Request` invocation leaves behind: the `*Error` it returns,
the value `json.Unmarshal` stored in the response target (`none` when nothing
was stored), the client, and the Request it handed to `RawRequest` or appended
to the pending list (`none` when it returned before doing either). -/
structure RequestOutcome where
  rpcError : Option Error
  decoded : Option GoValue
  client : Client
  sent : Option Request

/-- `Client.Request`, lines 192-205: the Request built and the id counter after it. -/
def Client.Request.build (c : Client) (method : String) (isCall : Bool) : Request × Client :=
  let jsonrpcRequest : Request :=
    { Jsonrpc := "2.0", Id := none, Method := method, Params := none }
  if isCall then
    ({ jsonrpcRequest with Id := some (.int c.callId) },
      { c with callId := wrapInt (c.callId + 1) })
  else
    (jsonrpcRequest, c)

/-- `Client.Request`, lines 275-287: what is done with the Response obtained.
`response` is the type the target points to, `none` for a nil target. -/
def Client.Request.finish (lib : GoLib) (response : Option GoType) (jsonrpcResponse : Response) :
    Option Error × Option GoValue :=
  match jsonrpcResponse.Error with
  | some e => (some e, none)
  | none =>
    match response with
    | none => (none, none)
    | some t =>
      match lib.Unmarshal t jsonrpcResponse.Result with
      | .error _ => (none, none)
      | .ok v => (none, some v)

/-- `Client.Request` with `timeout` not positive: lines 192-210, 266-273 and 275-287. -/
def Client.Request.immediate (lib : GoLib) (c : Client) (method : String)
    (params : Option GoValue) (response : Option GoType) : RequestOutcome :=
  let built := Client.Request.build c method response.isSome
  match lib.Marshal (.value params) with
  | .error _ => { rpcError := none, decoded := none, client := built.2, sent := none }
  | .ok p =>
    let jsonrpcRequest := { built.1 with Params := some p }
    match built.2.RawRequest lib (.single jsonrpcRequest) with
    | some (.single jsonrpcResponse) =>
      let r := Client.Request.finish lib response jsonrpcResponse
      { rpcError := r.1, decoded := r.2, client := built.2, sent := some jsonrpcRequest }
    | _ => { rpcError := none, decoded := none, client := built.2, sent := some jsonrpcRequest }

/-! ### The coalescing path of `Client.Request` -/

/-- The name Go prints for the dynamic type of an `interface{}` in a failed
type assertion. -/
def GoValue.typeName : Option GoValue → String
  | none => "nil"
  | some (.int _) => "int"
  | some (.float64 _) => "float64"
  | some (.string _) => "string"
  | some (.bool _) => "bool"
  | some (.other tag) => "type#" ++ toString tag

/-- The type assertion `v.(int)`: it yields the `int`, and panics (`.error`,
with the text of the panic) on nil and on every other dynamic type. -/
def assertInt (v : Option GoValue) : Except String Int :=
  match v with
  | some (.int n) => .ok n
  | _ => .error ("interface conversion: interface {} is " ++ GoValue.typeName v ++ ", not int")

/-- The type assertion `v.(float64)`: it yields the `float64`, and panics on
nil and on every other dynamic type. -/
def assertFloat64 (v : Option GoValue) : Except String Rat :=
  match v with
  | some (.float64 x) => .ok x
  | _ =>
    .error ("interface conversion: interface {} is " ++ GoValue.typeName v ++ ", not float64")

/-- The conversion `int(x)` of a `float64`, as linux/amd64 computes it: the
fraction is discarded, and a value outside the 64 bits of an `int` gives the
least `int`. -/
def float64ToInt (x : Rat) : Int :=
  let t := Int.tdiv x.num x.den
  if -9223372036854775808 ≤ t ∧ t < 9223372036854775808 then t else -9223372036854775808

/-- `Client.Request`, lines 214-221: what a caller does between acquiring and
releasing `batchMutex`. It yields the client, the `channelId` and whether the
timer goroutine was launched; `.error` is a panic. -/
def Client.Request.enqueue (c : Client) (jsonrpcRequest : Request) :
    Except String (Client × Int × Bool) :=
  let c := { c with batchRequestArray := c.batchRequestArray ++ [jsonrpcRequest] }
  match assertInt jsonrpcRequest.Id with
  | .error msg => .error msg
  | .ok channelId =>
    let c := { c with
      batchResponseMap := fun k => if k = channelId then some [] else c.batchResponseMap k }
    if ¬ c.batchIsRun then
      .ok ({ c with batchIsRun := true }, channelId, true)
    else
      .ok (c, channelId, false)

/-- The timer goroutine, lines 228-244: the Response array it goes on to distribute. -/
def Client.Request.timer.responses (lib : GoLib) (c : Client) : List Response :=
  match c.RawRequest lib (.batch c.batchRequestArray) with
  | some (.batch jsonrpcArrayResponse) => jsonrpcArrayResponse
  | _ =>
    c.batchRequestArray.map (fun requestObject =>
      { Jsonrpc := requestObject.Jsonrpc, Id := requestObject.Id, Result := none,
        Error := some { Code := -32603, Message := "Internal error", Data := none } })

/-- What `.error` carries when the timer goroutine does not panic but stops for
good at a send that no caller will receive. -/
def blockedSend : String := "send on a waiter channel that has no receiver left"

/-- The timer goroutine, lines 247-253: one turn of the distribution loop.
A waiter channel is unbuffered and has one receiver, the caller that made it,
which receives once: the first send on it goes through and is recorded, a
second one blocks for good. `.error` is a stop: a panic, with its text, or
that blocked send, with `blockedSend`. -/
def Client.Request.timer.deliver (batchResponseMap : Int → Option Chan) (value : Response) :
    Except String (Int → Option Chan) :=
  if value.Id.isSome then
    match assertFloat64 value.Id with
    | .error msg => .error msg
    | .ok x =>
      let channelId := float64ToInt x
      match batchResponseMap channelId with
      | none => .ok batchResponseMap
      | some [] =>
        .ok (fun k => if k = channelId then some [value] else batchResponseMap k)
      | some (_ :: _) => .error blockedSend
  else
    .ok batchResponseMap

/-- The timer goroutine, lines 246-254: the waiter map when the distribution
loop ends or stops. -/
def Client.Request.timer.reached :
    (Int → Option Chan) → List Response → (Int → Option Chan)
  | batchResponseMap, [] => batchResponseMap
  | batchResponseMap, value :: rest =>
    match Client.Request.timer.deliver batchResponseMap value with
    | .error _ => batchResponseMap
    | .ok m => Client.Request.timer.reached m rest

/-- The timer goroutine, lines 246-254: the distribution loop. -/
def Client.Request.timer.distribute :
    (Int → Option Chan) → List Response → Except String (Int → Option Chan)
  | batchResponseMap, [] => .ok batchResponseMap
  | batchResponseMap, value :: rest =>
    match Client.Request.timer.deliver batchResponseMap value with
    | .error msg => .error msg
    | .ok m => Client.Request.timer.distribute m rest

/-- The timer goroutine, lines 228-257, from the moment it holds `batchMutex`
to the moment it releases it: send, distribute, reset. On `.error` it has
stopped inside the loop, still holding `batchMutex`. -/
def Client.Request.timer (lib : GoLib) (c : Client) : Except String Client :=
  match Client.Request.timer.distribute c.batchResponseMap
      (Client.Request.timer.responses lib c) with
  | .error msg => .error msg
  | .ok m => .ok { c with batchResponseMap := m, batchIsRun := false, batchRequestArray := [] }

/-- How a `Client.Request` invocation ends when no other caller runs beside it. -/
inductive Completion where
  /-- the invocation returned -/
  | returned (o : RequestOutcome)
  /-- a goroutine panicked, with this text -/
  | panicked (msg : String)
  /-- the caller waits for good: on its channel, on which nothing is sent, or
  for a timer that is not there -/
  | blocked

/-- `Client.Request` with `timeout` positive, lines 192-265 and 275-287, run
with the timer goroutine it launches and no other caller; the timer runs its
loop as far as it gets before the caller goes on. It yields the Request
appended to the pending list (`none` when the params do not encode) and how
the invocation ends. When the timer stops at a blocked send after the caller
has its Response, the caller returns and the client stays as the timer left
it: flag set, pending list not cleared. -/
def Client.Request.coalesced (lib : GoLib) (c : Client) (method : String)
    (params : Option GoValue) (response : Option GoType) : Option Request × Completion :=
  let built := Client.Request.build c method response.isSome
  match lib.Marshal (.value params) with
  | .error _ =>
    (none, .returned { rpcError := none, decoded := none, client := built.2, sent := none })
  | .ok p =>
    let jsonrpcRequest := { built.1 with Params := some p }
    (some jsonrpcRequest,
      match Client.Request.enqueue built.2 jsonrpcRequest with
      | .error msg => .panicked msg
      | .ok (c, channelId, launched) =>
        if launched then
          match Client.Request.timer lib c with
          | .ok c =>
            match c.batchResponseMap channelId with
            | some (jsonrpcResponse :: _) =>
              let c := { c with
                batchResponseMap := fun k =>
                  if k = channelId then none else c.batchResponseMap k }
              let r := Client.Request.finish lib response jsonrpcResponse
              .returned
                { rpcError := r.1, decoded := r.2, client := c, sent := some jsonrpcRequest }
            | _ => .blocked
          | .error msg =>
            if msg = blockedSend then
              let m := Client.Request.timer.reached c.batchResponseMap
                (Client.Request.timer.responses lib c)
              match m channelId with
              | some (jsonrpcResponse :: _) =>
                let c := { c with
                  batchResponseMap := fun k => if k = channelId then none else m k }
                let r := Client.Request.finish lib response jsonrpcResponse
                .returned
                  { rpcError := r.1, decoded := r.2, client := c, sent := some jsonrpcRequest }
              | _ => .blocked
            else .panicked msg
        else
          .blocked)

/-- `Client.Request`, run with no other caller beside it: the Request it hands
to `RawRequest` or appends to the pending list (`none` when the params do not
encode), and how the invocation ends. -/
def Client.Request.traced (lib : GoLib) (c : Client) (method : String)
    (params : Option GoValue) (response : Option GoType) (timeout : Int) :
    Option Request × Completion :=
  if timeout > 0 then
    Client.Request.coalesced lib c method params response
  else
    ((Client.Request.immediate lib c method params response).sent,
      .returned (Client.Request.immediate lib c method params response))

/-- `Client.Request`, run with no other caller beside it. -/
def Client.Request (lib : GoLib) (c : Client) (method : String) (params : Option GoValue)
    (response : Option GoType) (timeout : Int) : Completion :=
  (Client.Request.traced lib c method params response timeout).2

/-- Where a caller of `Client.Request` with a positive timeout stands. -/
inductive CallerPc where
  /-- line 213 ahead: `c.batchMutex <- true` -/
  | atAcquire (jsonrpcRequest : Request)
  /-- holds the gate, lines 214-221 ahead -/
  | inSection (jsonrpcRequest : Request)
  /-- holds the gate, line 262 ahead: `<-c.batchMutex` -/
  | atRelease (channelId : Int)
  /-- line 264: waits on `c.batchResponseMap[channelId]` -/
  | atReceive (channelId : Int)
  /-- has received, line 265 ahead: `delete(c.batchResponseMap, channelId)` -/
  | received (channelId : Int) (jsonrpcResponse : Response)
  /-- past line 265: the rest of the invocation touches no shared state -/
  | returned
  deriving DecidableEq, Repr

/-- Where a timer goroutine stands. -/
inductive TimerPc where
  /-- line 224: `time.Sleep` -/
  | sleeping
  /-- line 226 ahead: `c.batchMutex <- true` -/
  | atAcquire
  /-- holds the gate, lines 228-244 ahead -/
  | atSend
  /-- holds the gate, in the loop of lines 246-254 with these Responses left -/
  | distributing (rest : List Response)
  /-- holds the gate, lines 256-257 done, line 258 ahead: `<-c.batchMutex` -/
  | atRelease
  deriving DecidableEq, Repr

/-- Whether a caller at this point holds the gate. -/
def CallerPc.holdsGate : CallerPc → Bool
  | .inSection _ => true
  | .atRelease _ => true
  | _ => false

/-- Whether a timer at this point holds the gate. -/
def TimerPc.holdsGate : TimerPc → Bool
  | .atSend => true
  | .distributing _ => true
  | .atRelease => true
  | _ => false

/-- Whether a timer has sent its batch and not yet cleared the pending list. -/
def TimerPc.isDistributing : TimerPc → Bool
  | .distributing _ => true
  | _ => false

/-- A client with the goroutines running on it. `timers` are the timer
goroutines alive; `sent` (the batches handed to `RawRequest`, oldest first)
and `appended` (the Requests appended to the pending list, oldest first) keep
the history. -/
structure Sys where
  client : Client
  gate : Bool
  callers : List CallerPc
  timers : List TimerPc
  sent : List (List Request)
  appended : List Request
  crashed : Bool

/-- A client created by `NewClient`, before any invocation. -/
def Sys.init (transport : String → Option String) : Sys :=
  { client := NewClient transport, gate := false, callers := [], timers := [], sent := [],
    appended := [], crashed := false }

/-- The Requests appended and not yet handed to `RawRequest`. -/
def Sys.unsent (s : Sys) : List Request :=
  if s.timers.any TimerPc.isDistributing then [] else s.client.batchRequestArray

/-- What the scheduler lets happen next. -/
inductive Action where
  /-- a new invocation with a positive timeout runs lines 192-210 -/
  | invoke (method : String) (params : Option GoValue) (response : Option GoType)
  /-- caller `i` runs its next statement -/
  | caller (i : Nat)
  /-- timer `i` runs its next statement; when that is a send on a waiter
  channel, caller `receiver` is the one receiving -/
  | timer (i : Nat) (receiver : Nat)

/-- A new invocation: lines 192-210. When the params do not encode it returns
at once. -/
def Sys.invoke (lib : GoLib) (s : Sys) (method : String) (params : Option GoValue)
    (response : Option GoType) : Sys :=
  let built := Client.Request.build s.client method response.isSome
  match lib.Marshal (.value params) with
  | .error _ => { s with client := built.2 }
  | .ok p =>
    { s with
      client := built.2
      callers := s.callers ++ [.atAcquire { built.1 with Params := some p }] }

/-- The next statement of caller `i`; `none` when it cannot run. -/
def Sys.callerStep (s : Sys) (i : Nat) : Option Sys :=
  match s.callers[i]? with
  | some (.atAcquire jsonrpcRequest) =>
    if s.gate then none
    else some { s with gate := true, callers := s.callers.set i (.inSection jsonrpcRequest) }
  | some (.inSection jsonrpcRequest) =>
    match Client.Request.enqueue s.client jsonrpcRequest with
    | .error _ =>
      some { s with
        client := { s.client with
          batchRequestArray := s.client.batchRequestArray ++ [jsonrpcRequest] }
        appended := s.appended ++ [jsonrpcRequest]
        crashed := true }
    | .ok (c, channelId, launched) =>
      some { s with
        client := c
        callers := s.callers.set i (.atRelease channelId)
        timers := if launched then s.timers ++ [.sleeping] else s.timers
        appended := s.appended ++ [jsonrpcRequest] }
  | some (.atRelease channelId) =>
    some { s with gate := false, callers := s.callers.set i (.atReceive channelId) }
  | some (.received channelId _) =>
    some { s with
      client := { s.client with
        batchResponseMap := fun k => if k = channelId then none else s.client.batchResponseMap k }
      callers := s.callers.set i .returned }
  | _ => none

/-- The next statement of timer `i`; `none` when it cannot run. -/
def Sys.timerStep (lib : GoLib) (s : Sys) (i receiver : Nat) : Option Sys :=
  match s.timers[i]? with
  | some .sleeping => some { s with timers := s.timers.set i .atAcquire }
  | some .atAcquire =>
    if s.gate then none
    else some { s with gate := true, timers := s.timers.set i .atSend }
  | some .atSend =>
    some { s with
      timers := s.timers.set i (.distributing (Client.Request.timer.responses lib s.client))
      sent := s.sent ++ [s.client.batchRequestArray] }
  | some (.distributing []) =>
    some { s with
      client := { s.client with batchIsRun := false, batchRequestArray := [] }
      timers := s.timers.set i .atRelease }
  | some (.distributing (value :: rest)) =>
    if value.Id.isSome then
      match assertFloat64 value.Id with
      | .error _ => some { s with crashed := true }
      | .ok x =>
        let channelId := float64ToInt x
        match s.client.batchResponseMap channelId with
        | none => some { s with timers := s.timers.set i (.distributing rest) }
        | some ch =>
          match s.callers[receiver]? with
          | some (.atReceive k) =>
            if k = channelId then
              some { s with
                client := { s.client with
                  batchResponseMap := fun j =>
                    if j = channelId then some (ch ++ [value]) else s.client.batchResponseMap j }
                callers := s.callers.set receiver (.received k value)
                timers := s.timers.set i (.distributing rest) }
            else none
          | _ => none
    else some { s with timers := s.timers.set i (.distributing rest) }
  | some .atRelease => some { s with gate := false, timers := s.timers.eraseIdx i }
  | none => none

/-- One step of the system; `none` when the action cannot happen. -/
def Sys.step (lib : GoLib) (s : Sys) (a : Action) : Option Sys :=
  if s.crashed then none
  else
    match a with
    | .invoke method params response => some (s.invoke lib method params response)
    | .caller i => s.callerStep i
    | .timer i receiver => s.timerStep lib i receiver

/-- The state after a schedule; `none` when one of its actions cannot happen. -/
def Sys.run (lib : GoLib) : Sys → List Action → Option Sys
  | s, [] => some s
  | s, a :: rest =>
    match s.step lib a with
    | none => none
    | some s' => Sys.run lib s' rest

/-- What holds of every state a schedule reaches from `Sys.init`. -/
structure Sys.Inv (s : Sys) : Prop where
  gate_count :
    s.callers.countP CallerPc.holdsGate + s.timers.countP TimerPc.holdsGate =
      if s.gate then 1 else 0
  timers_le : s.timers.length ≤ 1
  run_false : s.client.batchIsRun = false → ∀ t ∈ s.timers, t = .atRelease
  run_true : s.client.batchIsRun = true → ∃ t, s.timers = [t] ∧ t ≠ .atRelease
  accounting : s.sent.flatten ++ s.unsent = s.appended
  pending : s.crashed = false → s.client.batchRequestArray ≠ [] → s.client.batchIsRun = true

/-! ## Scenarios

Concrete inputs for the closed theorems. `wire` strings spell JSON texts. -/

/-- Wire text `[{"jsonrpc":"2.0","method":"notify"}]`. -/
def notifyBatchWire : String := "[\x7b\"jsonrpc\":\"2.0\",\"method\":\"notify\"\x7d]"

/-- Wire text `[{"jsonrpc":"2.0","id":1,"method":"ok"},{"jsonrpc":"2.0","method":"notify"}]`. -/
def mixedBatchWire : String :=
  "[\x7b\"jsonrpc\":\"2.0\",\"id\":1,\"method\":\"ok\"\x7d,\x7b\"jsonrpc\":\"2.0\",\"method\":\"notify\"\x7d]"

/-- Wire text `[{"jsonrpc":"2.0","id":1,"method":"fail"}]`. -/
def failBatchWire : String := "[\x7b\"jsonrpc\":\"2.0\",\"id\":1,\"method\":\"fail\"\x7d]"

/-- Wire text `{"jsonrpc":"2.0","id":1,"method":"ping","params":null}`. -/
def pingWire : String :=
  "\x7b\"jsonrpc\":\"2.0\",\"id\":1,\"method\":\"ping\",\"params\":null\x7d"

/-- Wire text `{"jsonrpc":"2.0","id":1,"result":"pong"}`. -/
def pongWire : String := "\x7b\"jsonrpc\":\"2.0\",\"id\":1,\"result\":\"pong\"\x7d"

/-- Wire text `[{"jsonrpc":"2.0","id":1,"result":"done"}]`. -/
def doneBatchWire : String := "[\x7b\"jsonrpc\":\"2.0\",\"id\":1,\"result\":\"done\"\x7d]"

/-- Wire text of `mixedBatchWire` after one leading space. -/
def spacedBatchWire : String :=
  " [\x7b\"jsonrpc\":\"2.0\",\"id\":1,\"method\":\"ok\"\x7d,\x7b\"jsonrpc\":\"2.0\",\"method\":\"notify\"\x7d]"

/-- Wire text `[{"jsonrpc":"2.0","id":1,"method":"ping","params":null}]`. -/
def pingBatchWire : String :=
  "[\x7b\"jsonrpc\":\"2.0\",\"id\":1,\"method\":\"ping\",\"params\":null\x7d]"

/-- The notification `{"jsonrpc":"2.0","method":"notify"}`. -/
def notifyRequest : Request :=
  { Jsonrpc := "2.0", Id := none, Method := "notify", Params := none }

/-- The call `{"jsonrpc":"2.0","id":1,"method":m}` as the server decodes it
(a JSON number becomes a `float64`). -/
def callRequest (m : String) : Request :=
  { Jsonrpc := "2.0", Id := some (.float64 1), Method := m, Params := none }

/-- The Request `Client.Request "ping" nil target 0` builds on a new client. -/
def pingRequest : Request :=
  { Jsonrpc := "2.0", Id := some (.int 1), Method := "ping", Params := some "null" }

/-- Wire text of `errorResponse c m d` for texts `m`, `d` that need no escaping. -/
def errorWire (c m d : String) : String :=
  "\x7b\"jsonrpc\":\"2.0\",\"id\":null,\"error\":\x7b\"code\":" ++ c ++ ",\"message\":\"" ++ m ++
    "\",\"data\":\"" ++ d ++ "\"\x7d\x7d"

/-- An application Error whose `Data` is a channel, which `json.Marshal` rejects. -/
def chanError : Error :=
  { Code := 1, Message := "app", Data := some (.other 0) }

/-- The Response `Server.Call` builds for `callRequest "ok"` when the handler returns "done". -/
def doneResponse : Response :=
  { Jsonrpc := "2.0", Id := some (.float64 1), Result := some "\"done\"", Error := none }

/-- The Response `Server.Call` builds for `callRequest "fail"` when the handler returns `chanError`. -/
def chanResponse : Response :=
  { Jsonrpc := "2.0", Id := some (.float64 1), Result := none, Error := some chanError }

/-- A standard-library record fixed on the inputs of the scenarios, where it
answers as Go does. On any other input it returns an error (or `false`); the
closed theorems do not evaluate it there. -/
def scenarioLib : GoLib where
  Valid := fun b =>
    b ∈ [pingWire, pongWire, notifyBatchWire, mixedBatchWire, failBatchWire, doneBatchWire,
      "[]", "null", "\"done\"", "\"pong\"", spacedBatchWire, pingBatchWire]
  Marshal := fun v =>
    if v = .responses [] then .ok "[]"
    else if v = .value none then .ok "null"
    else if v = .value (some (.string "done")) then .ok "\"done\""
    else if v = .request pingRequest then .ok pingWire
    else if v = .responses [doneResponse] then .ok doneBatchWire
    else if v = .responses [chanResponse] then .error "json: unsupported type: chan int"
    else if v = .response (errorResponse (-32700) "Parse error" "Empty request") then
      .ok (errorWire "-32700" "Parse error" "Empty request")
    else if v = .response
        (errorResponse (-32603) "Internal error" "json: unsupported type: chan int") then
      .ok (errorWire "-32603" "Internal error" "json: unsupported type: chan int")
    else if v = .response (errorResponse (-32000) "Server error" "oops") then
      .ok (errorWire "-32000" "Server error" "oops")
    else if v = .response (errorResponse (-32600) "Invalid Request" "oops") then
      .ok (errorWire "-32600" "Invalid Request" "oops")
    else if v = .response (errorResponse (-32600) "Invalid Request"
        "json: cannot unmarshal array into Go value of type jsonrpc.Request") then
      .ok (errorWire "-32600" "Invalid Request"
        "json: cannot unmarshal array into Go value of type jsonrpc.Request")
    else if v = .requests [pingRequest] then .ok pingBatchWire
    else .error "json: unsupported type"
  UnmarshalRequest := fun b =>
    if b = spacedBatchWire then
      .error "json: cannot unmarshal array into Go value of type jsonrpc.Request"
    else .error "unexpected end of JSON input"
  UnmarshalRequests := fun b =>
    if b = notifyBatchWire then .ok [notifyRequest]
    else if b = mixedBatchWire then .ok [callRequest "ok", notifyRequest]
    else if b = failBatchWire then .ok [callRequest "fail"]
    else if b = spacedBatchWire then .ok [callRequest "ok", notifyRequest]
    else .error "unexpected end of JSON input"
  UnmarshalResponse := fun b =>
    if b = some pongWire then
      .ok { Jsonrpc := "2.0", Id := some (.float64 1), Result := some "\"pong\"", Error := none }
    else if b = some "[]" then
      .error "json: cannot unmarshal array into Go value of type jsonrpc.Response"
    else .error "unexpected end of JSON input"
  UnmarshalResponses := fun b =>
    if b = some pongWire then
      .error "json: cannot unmarshal object into Go value of type []jsonrpc.Response"
    else .error "unexpected end of JSON input"
  Unmarshal := fun t b =>
    if t = .string ∧ b = some "\"pong\"" then .ok (.string "pong")
    else if t = .int ∧ b = some "\"pong\"" then
      .error "json: cannot unmarshal string into Go value of type int"
    else .error "unexpected end of JSON input"
  Post := fun _ _ _ => .ok { handle := 0 }
  ReadAll := fun _ => (some "oops", none)

/-- A client whose transport answers every payload with the bytes `reply`. -/
def scenarioClient (reply : String) : Client :=
  NewClient (fun _ => some reply)

/-- A registry with three handlers, none declaring a parameter type: "ok"
returns "done", "noop" returns nothing at all, "fail" returns `chanError`. -/
def scenarioServer : Server :=
  ((NewServer.HandleFunc "ok" (fun _ => (some (.string "done"), none)) none none).HandleFunc
    "noop" (fun _ => (none, none)) none none).HandleFunc
    "fail" (fun _ => (none, some (.rpc (some chanError)))) none none

/-- The scenario registry with one more handler, "sum", which declares the
parameter type `int`. -/
def typedServer : Server :=
  scenarioServer.HandleFunc "sum" (fun p => (p, none)) (some (.int 0)) none

/-- A client in the middle of a coalescing window: the call `pingRequest` is
pending, its waiter is registered under key 1, a timer is running, and the
transport answers with the single object `pongWire`. -/
def pendingClient : Client :=
  { scenarioClient pongWire with
    callId := 2
    batchIsRun := true
    batchRequestArray := [pingRequest]
    batchResponseMap := fun k => if k = 1 then some [] else none }

/-- Two calls join one window: the first caller appends its Request, launches
the timer and releases the gate; the second does the same while the timer
sleeps. -/
def scenarioSchedule : List Action :=
  [.invoke "ping" none (some .string), .caller 0, .caller 0, .caller 0,
   .invoke "ping" none (some .string), .caller 1, .caller 1, .caller 1]

/-- The Request `Client.Request "notify" nil nil 50` builds. -/
def notifyNullRequest : Request :=
  { Jsonrpc := "2.0", Id := none, Method := "notify", Params := some "null" }

/-- A call joins a window, then a notification with a positive timeout enters
its critical section while the timer sleeps. -/
def crashSchedule : List Action :=
  [.invoke "ping" none (some .string), .caller 0, .caller 0, .caller 0,
   .invoke "notify" none none, .caller 1, .caller 1]

/-- A call joins a window and the timer runs up to its call of `RawRequest`. -/
def sendSchedule : List Action :=
  [.invoke "ping" none (some .string), .caller 0, .caller 0, .caller 0,
   .timer 0 0, .timer 0 0, .timer 0 0]

/-! ## Server.Call -/

/-- The Response object `Server.Call` allocates: always when the version is
wrong, otherwise exactly when the Request has an id. -/
theorem call_body_response (lib : GoLib) (s : Server) (request : Request) :
    (Server.Call.body lib s request).response =
      if request.Jsonrpc ≠ "2.0" then some Response.zero
      else if request.Id.isSome then some Response.zero else none := by
  unfold Server.Call.body
  split
  · rfl
  · dsimp only
    split
    · rfl
    · split
      · rfl
      · split <;> rfl

/-- The deferred closure of `Server.Call` leaves a nil result nil. -/
theorem call_deferred_nil (lib : GoLib) (request : Request) (f : CallFrame)
    (h : f.response = none) : Server.Call.deferred lib request f = none := by
  unfold Server.Call.deferred
  rw [h]

/-- `Server.Call` returns nil when the version is "2.0" and the id is nil. -/
theorem call_nil_of_no_id (lib : GoLib) (s : Server) (request : Request)
    (hv : request.Jsonrpc = "2.0") (hid : request.Id = none) :
    Server.Call lib s request = none := by
  unfold Server.Call
  apply call_deferred_nil
  rw [call_body_response]
  simp [hv, hid]

/-- C5: a Request with version "2.0" and no id gets no Response from
`Server.Call`, for every registry, whatever the method, the params and the
handler: unregistered method, undecodable params, handler error or success. -/
theorem call_notification_returns_nil (lib : GoLib) (s : Server) (request : Request)
    (hv : request.Jsonrpc = "2.0") (hid : request.Id = none) :
    Server.Call lib s request = none :=
  call_nil_of_no_id lib s request hv hid

/-- C6: a Request whose version is not "2.0" gets a Response, with or without
an id, that carries error -32600 and no result; the Response is the same for
every registry, so no handler is looked up or invoked. -/
theorem call_wrong_version_invalid_request (lib : GoLib) (s : Server) (request : Request)
    (hv : request.Jsonrpc ≠ "2.0") :
    Server.Call lib s request =
        some { Jsonrpc := request.Jsonrpc, Id := request.Id, Result := none,
               Error := some { Code := -32600, Message := "Invalid Request",
                               Data := some (.string "Invalid JsonRPC version") } } ∧
      ∀ (lib' : GoLib) (s' : Server), Server.Call lib' s' request = Server.Call lib s request := by
  have key : ∀ (l : GoLib) (t : Server), Server.Call l t request =
      some { Jsonrpc := request.Jsonrpc, Id := request.Id, Result := none,
             Error := some { Code := -32600, Message := "Invalid Request",
                             Data := some (.string "Invalid JsonRPC version") } } := by
    intro l t
    simp [Server.Call, Server.Call.body, Server.Call.deferred, hv, Response.zero]
  exact ⟨key lib s, fun l t => (key l t).trans (key lib s).symm⟩

/-- The frame `Server.Call` reaches once the version is right, the method is
registered and the params are decoded: the handler function has been applied. -/
theorem call_body_invoke (lib : GoLib) (s : Server) (request : Request) (handler : Handler)
    (p : Option GoValue) (hv : request.Jsonrpc = "2.0")
    (hm : s.HandlerMap request.Method = some handler)
    (hp : Server.Call.decodeParams lib handler request = .ok p) :
    Server.Call.body lib s request =
      match handler.Function p with
      | (responseResult, none) =>
        { response := if request.Id.isSome then some Response.zero else none,
          responseResult := responseResult, responseError := none }
      | (responseResult, some (.rpc q)) =>
        { response := if request.Id.isSome then some Response.zero else none,
          responseResult := responseResult, responseError := q }
      | (responseResult, some err) =>
        { response := if request.Id.isSome then some Response.zero else none,
          responseResult := responseResult,
          responseError := some { Code := -32603, Message := "Internal error",
                                  Data := some (.string err.Error) } } := by
  unfold Server.Call.body
  simp only [hv, ne_eq, not_true_eq_false, if_false, hm, hp]

/-- C2, as amended: for a Request with version "2.0", a non-null id, a
registered method and decodable params, when the handler returns no error and
a non-nil result that `json.Marshal` encodes, `Server.Call` returns a Response
with the Request's id, the encoded result and no error. -/
theorem call_success_response (lib : GoLib) (s : Server) (request : Request)
    (handler : Handler) (p : Option GoValue) (v : GoValue) (b : String)
    (hv : request.Jsonrpc = "2.0") (hid : request.Id ≠ none)
    (hm : s.HandlerMap request.Method = some handler)
    (hp : Server.Call.decodeParams lib handler request = .ok p)
    (hf : handler.Function p = (some v, none))
    (hb : lib.Marshal (.value (some v)) = .ok b) :
    Server.Call lib s request =
      some { Jsonrpc := request.Jsonrpc, Id := request.Id, Result := some b, Error := none } := by
  have hsome : request.Id.isSome = true := Option.isSome_iff_ne_none.mpr hid
  unfold Server.Call
  rw [call_body_invoke lib s request handler p hv hm hp, hf]
  simp [Server.Call.deferred, hsome, hb, Response.zero]

/-- Witness for C2 as amended: the "ok" handler of the scenario registry. -/
theorem call_success_response_witness :
    Server.Call scenarioLib scenarioServer (callRequest "ok") = some doneResponse :=
  call_success_response scenarioLib scenarioServer (callRequest "ok")
    { Request := none, Response := none, Function := fun _ => (some (.string "done"), none) }
    none (.string "done") "\"done\"" rfl (by simp [callRequest]) rfl rfl rfl rfl

/-- C2, counterexample: the "noop" handler is registered without a parameter
type and returns no error (and no result); the Request has version "2.0" and
id 1; the Response carries error -32603. -/
theorem call_nil_result_counterexample :
    (callRequest "noop").Jsonrpc = "2.0" ∧ (callRequest "noop").Id ≠ none ∧
      (∃ h : Handler, scenarioServer.HandlerMap (callRequest "noop").Method = some h ∧
        h.Request = none ∧ (h.Function none).2 = none) ∧
      Server.Call scenarioLib scenarioServer (callRequest "noop") =
        some { Jsonrpc := "2.0", Id := some (.float64 1), Result := none,
               Error := some { Code := -32603, Message := "Internal error", Data := none } } := by
  refine ⟨rfl, by simp [callRequest], ⟨_, rfl, rfl, rfl⟩, ?_⟩
  rfl

/-- Witness for C5: the scenario notification, sent to an empty registry. -/
theorem call_notification_returns_nil_witness :
    Server.Call scenarioLib NewServer notifyRequest = none :=
  call_notification_returns_nil scenarioLib NewServer notifyRequest rfl rfl

/-- Witness for C6: a notification with version "1.0". -/
theorem call_wrong_version_invalid_request_witness :
    Server.Call scenarioLib scenarioServer
        { Jsonrpc := "1.0", Id := none, Method := "ok", Params := none } =
      some { Jsonrpc := "1.0", Id := none, Result := none,
             Error := some { Code := -32600, Message := "Invalid Request",
                             Data := some (.string "Invalid JsonRPC version") } } :=
  (call_wrong_version_invalid_request scenarioLib scenarioServer
    { Jsonrpc := "1.0", Id := none, Method := "ok", Params := none } (by decide)).1

/-- The loop of `Server.Handler` appends to a non-nil slice the Responses that
are not nil, in the order of the Requests. -/
theorem collect_loop (lib : GoLib) (s : Server) (requests : List Request) :
    ∀ acc : List Response,
      requests.foldl
          (fun (responseArrayStruct : Slice Response) requestStruct =>
            match s.Call lib requestStruct with
            | some responseStruct => responseArrayStruct.append responseStruct
            | none => responseArrayStruct)
          (some acc) =
        some (acc ++ requests.filterMap (s.Call lib)) := by
  induction requests with
  | nil => intro acc; simp
  | cons r rs ih =>
    intro acc
    rw [List.foldl_cons]
    cases hc : s.Call lib r with
    | none => simp only [hc]; rw [ih acc]; simp [List.filterMap_cons, hc]
    | some resp =>
      simp only [hc]
      rw [show Slice.append (some acc) resp = some (acc ++ [resp]) from rfl, ih (acc ++ [resp])]
      simp [List.filterMap_cons, hc]

/-- The slice `Server.Handler` collects for a batch is never nil. -/
theorem collect_eq (lib : GoLib) (s : Server) (requests : List Request) :
    Server.Handler.collect lib s requests = some (requests.filterMap (s.Call lib)) := by
  unfold Server.Handler.collect Slice.make0
  rw [collect_loop lib s requests []]
  simp

/-- A payload whose first byte is `[` is not empty. -/
theorem length_ne_zero_of_head (request : String) (c : Char)
    (h : request.data.head? = some c) : request.length ≠ 0 := by
  intro h0
  have : request.data = [] := List.length_eq_zero.mp h0
  rw [this] at h
  simp at h

/-- What `Server.Handler` does with a batch payload that decodes to a
non-empty array: it encodes the collected Responses, and reports a failure of
the encoder as an Internal error. -/
theorem handler_batch (lib : GoLib) (s : Server) (payload : String) (requests : List Request)
    (hfirst : payload.data.head? = some '[')
    (hdec : lib.UnmarshalRequests payload = .ok requests) (hne : requests ≠ []) :
    Server.Handler lib s payload =
      match lib.Marshal (.responses (requests.filterMap (s.Call lib))) with
      | .ok b => some b
      | .error e =>
        lib.marshalBytes
          (.response { Jsonrpc := "2.0", Id := none, Result := none,
                       Error := some { Code := -32603, Message := "Internal error",
                                       Data := some (.string e) } }) := by
  have hlen : requests.length ≠ 0 := fun h => hne (List.length_eq_zero.mp h)
  unfold Server.Handler Server.Handler.body
  simp only [length_ne_zero_of_head payload _ hfirst, hfirst, if_false, decide_True, if_true,
    hdec, hlen, collect_eq, Server.Handler.encode]
  cases lib.Marshal (.responses (requests.filterMap (s.Call lib))) <;>
    simp [Server.Handler.deferred]

/-- A batch of notifications with version "2.0" yields no Response. -/
theorem filterMap_call_notifications (lib : GoLib) (s : Server) (requests : List Request)
    (hall : ∀ r ∈ requests, r.Jsonrpc = "2.0" ∧ r.Id = none) :
    requests.filterMap (s.Call lib) = [] := by
  rw [List.filterMap_eq_nil_iff]
  intro r hr
  exact call_nil_of_no_id lib s r (hall r hr).1 (hall r hr).2

/-- C1, the code at the claim's inputs: for a payload that starts with `[` and
decodes to a non-empty array of Requests, all with version "2.0" and no id,
`Server.Handler` encodes the empty, non-nil slice it collected; with
`json.Marshal` printing it as `[]`, the output is those two bytes, not zero
bytes. -/
theorem handler_notification_batch_emits_array (lib : GoLib) (s : Server) (payload : String)
    (requests : List Request)
    (hfirst : payload.data.head? = some '[')
    (hdec : lib.UnmarshalRequests payload = .ok requests) (hne : requests ≠ [])
    (hall : ∀ r ∈ requests, r.Jsonrpc = "2.0" ∧ r.Id = none)
    (hm : lib.Marshal (.responses []) = .ok "[]") :
    Server.Handler lib s payload = some "[]" := by
  rw [handler_batch lib s payload requests hfirst hdec hne,
    filterMap_call_notifications lib s requests hall, hm]

/-- Witness for C1: the batch `[{"jsonrpc":"2.0","method":"notify"}]`. -/
theorem handler_notification_batch_emits_array_witness :
    Server.Handler scenarioLib scenarioServer notifyBatchWire = some "[]" :=
  handler_notification_batch_emits_array scenarioLib scenarioServer notifyBatchWire
    [notifyRequest] rfl rfl (by simp)
    (by intro r hr; rw [List.mem_singleton] at hr; subst hr; exact ⟨rfl, rfl⟩) rfl

/-- The deferred closure of `Server.Handler` on a decode failure: the code is
chosen by `json.Valid` on the payload. -/
theorem handler_deferred_unmarshal (lib : GoLib) (payload msg : String) :
    Server.Handler.deferred lib payload
        { response := none, errorObject := some msg, unmarshalError := true } =
      lib.marshalBytes (.response
        { Jsonrpc := "2.0", Id := none, Result := none,
          Error := some
            (if lib.Valid payload then
              { Code := -32600, Message := "Invalid Request", Data := some (.string msg) }
            else
              { Code := -32700, Message := "Parse error", Data := some (.string msg) }) }) := by
  simp [Server.Handler.deferred]

/-- C7: a payload rejected before dispatch (empty; starting with `[` and
failing to decode as an array, or decoding to the empty array; not starting
with `[` and failing to decode as a Request) is answered with what
`json.Marshal` returns for one Response with version "2.0", null id, no
result and an error of code -32600 when `json.Valid` accepts the payload,
-32700 when it does not; `json.Valid` rejects the empty payload, which so
gets -32700. -/
theorem handler_parse_rejection (lib : GoLib) (s : Server) (payload : String)
    (hempty : lib.Valid "" = false)
    (h : payload.length = 0 ∨
      (payload.data.head? = some '[' ∧
        ((∃ e, lib.UnmarshalRequests payload = .error e) ∨
          lib.UnmarshalRequests payload = .ok [])) ∨
      (payload.length ≠ 0 ∧ payload.data.head? ≠ some '[' ∧
        ∃ e, lib.UnmarshalRequest payload = .error e)) :
    (∃ data : String,
        Server.Handler lib s payload =
          lib.marshalBytes (.response
            { Jsonrpc := "2.0", Id := none, Result := none,
              Error := some
                (if lib.Valid payload then
                  { Code := -32600, Message := "Invalid Request", Data := some (.string data) }
                else
                  { Code := -32700, Message := "Parse error", Data := some (.string data) }) })) ∧
      (payload.length = 0 →
        Server.Handler lib s payload =
          lib.marshalBytes (.response
            { Jsonrpc := "2.0", Id := none, Result := none,
              Error := some { Code := -32700, Message := "Parse error",
                              Data := some (.string "Empty request") } })) := by
  have hzero : payload.length = 0 →
      Server.Handler lib s payload =
        lib.marshalBytes (.response
          { Jsonrpc := "2.0", Id := none, Result := none,
            Error := some { Code := -32700, Message := "Parse error",
                            Data := some (.string "Empty request") } }) := by
    intro h0
    have hp : payload = "" := by
      apply String.ext
      exact List.length_eq_zero.mp h0
    subst hp
    simp [Server.Handler, Server.Handler.body, Server.Handler.deferred, hempty]
  refine ⟨?_, hzero⟩
  rcases h with h0 | ⟨hfirst, hbad⟩ | ⟨hlen, hfirst, e, he⟩
  · refine ⟨"Empty request", ?_⟩
    have hp : payload = "" := by
      apply String.ext
      exact List.length_eq_zero.mp h0
    rw [hzero h0]
    subst hp
    simp [hempty]
  · have hlen := length_ne_zero_of_head payload _ hfirst
    rcases hbad with ⟨e, he⟩ | hnil
    · refine ⟨e, ?_⟩
      have hbody : Server.Handler.body lib s payload =
          { response := none, errorObject := some e, unmarshalError := true } := by
        simp [Server.Handler.body, hlen, hfirst, he]
      rw [Server.Handler, hbody]
      exact handler_deferred_unmarshal lib payload e
    · refine ⟨"Empty request", ?_⟩
      have hbody : Server.Handler.body lib s payload =
          { response := none, errorObject := some "Empty request", unmarshalError := true } := by
        simp [Server.Handler.body, hlen, hfirst, hnil]
      rw [Server.Handler, hbody]
      exact handler_deferred_unmarshal lib payload "Empty request"
  · refine ⟨e, ?_⟩
    have hbody : Server.Handler.body lib s payload =
        { response := none, errorObject := some e, unmarshalError := true } := by
      simp [Server.Handler.body, hlen, hfirst, he]
    rw [Server.Handler, hbody]
    exact handler_deferred_unmarshal lib payload e

/-- Witness for C7: the empty payload. -/
theorem handler_parse_rejection_witness :
    Server.Handler scenarioLib scenarioServer "" =
      some (errorWire "-32700" "Parse error" "Empty request") :=
  ((handler_parse_rejection scenarioLib scenarioServer "" (by decide) (Or.inl rfl)).2 rfl).trans
    rfl

/-- With version "2.0", `Server.Call` answers exactly the Requests that have an
id, and with that id. -/
theorem call_id_echo (lib : GoLib) (s : Server) (request : Request)
    (hv : request.Jsonrpc = "2.0") :
    (Server.Call lib s request).map (fun r => r.Id) =
      if request.Id.isSome then some request.Id else none := by
  cases hid : request.Id with
  | none => simp [call_nil_of_no_id lib s request hv hid]
  | some i =>
    have hresp : (Server.Call.body lib s request).response = some Response.zero := by
      rw [call_body_response]
      simp [hv, hid]
    unfold Server.Call Server.Call.deferred
    rw [hresp]
    simp only [Option.isSome_some, if_true]
    split
    · split <;> simp [hid]
    · simp [hid]
    · simp [hid]

/-- The ids of the Responses collected for a batch of version "2.0" Requests
are the ids of the Requests that have one, in the same order. -/
theorem filterMap_call_ids (lib : GoLib) (s : Server) (requests : List Request)
    (hall : ∀ r ∈ requests, r.Jsonrpc = "2.0") :
    (requests.filterMap (s.Call lib)).map (fun r => r.Id) =
      (requests.filter (fun r => r.Id.isSome)).map (fun r => r.Id) := by
  induction requests with
  | nil => rfl
  | cons r rs ih =>
    have hr := call_id_echo lib s r (hall r (List.mem_cons_self r rs))
    have ih' := ih (fun x hx => hall x (List.mem_cons_of_mem r hx))
    cases hc : s.Call lib r with
    | none =>
      rw [hc] at hr
      have hnone : r.Id.isSome = false := by
        cases h : r.Id.isSome
        · rfl
        · rw [h] at hr; simp at hr
      simp [List.filterMap_cons, hc, List.filter_cons, hnone, ih']
    | some resp =>
      rw [hc] at hr
      have hsome : r.Id.isSome = true := by
        cases h : r.Id.isSome
        · rw [h] at hr; simp at hr
        · rfl
      rw [hsome] at hr
      simp only [Option.map_some', if_true, Option.some.injEq] at hr
      simp [List.filterMap_cons, hc, List.filter_cons, hsome, ih', hr]

/-- C9, as amended: for a payload whose first byte is `[` and that decodes to
Requests of version "2.0", at least one with an id, when `json.Marshal` encodes the
collected Response array, the output is that encoding, and the array holds one
Response per Request with an id, with that id and in the Requests' order, and
none for a Request without an id. -/
theorem handler_batch_one_response_per_id (lib : GoLib) (s : Server) (payload : String)
    (requests : List Request) (b : String)
    (hfirst : payload.data.head? = some '[')
    (hdec : lib.UnmarshalRequests payload = .ok requests)
    (hall : ∀ r ∈ requests, r.Jsonrpc = "2.0")
    (hsome : ∃ r ∈ requests, r.Id ≠ none)
    (hb : lib.Marshal (.responses (requests.filterMap (s.Call lib))) = .ok b) :
    Server.Handler lib s payload = some b ∧
      (requests.filterMap (s.Call lib)).map (fun r => r.Id) =
        (requests.filter (fun r => r.Id.isSome)).map (fun r => r.Id) ∧
      (requests.filterMap (s.Call lib)).length = requests.countP (fun r => r.Id.isSome) ∧
      ∀ r ∈ requests, r.Id = none → s.Call lib r = none := by
  have hne : requests ≠ [] := by
    rcases hsome with ⟨r, hr, _⟩
    exact List.ne_nil_of_mem hr
  have hids := filterMap_call_ids lib s requests hall
  refine ⟨?_, hids, ?_, ?_⟩
  · rw [handler_batch lib s payload requests hfirst hdec hne, hb]
  · have := congrArg List.length hids
    simpa [List.countP_eq_length_filter] using this
  · intro r hr hid
    exact call_nil_of_no_id lib s r (hall r hr) hid

/-- Witness for C9 as amended: the batch of one call and one notification. -/
theorem handler_batch_one_response_per_id_witness :
    Server.Handler scenarioLib scenarioServer mixedBatchWire = some doneBatchWire :=
  (handler_batch_one_response_per_id scenarioLib scenarioServer mixedBatchWire
    [callRequest "ok", notifyRequest] doneBatchWire rfl rfl
    (by intro r hr; simp only [List.mem_cons, List.mem_singleton, List.not_mem_nil, or_false] at hr
        rcases hr with h | h <;> subst h <;> rfl)
    ⟨callRequest "ok", by simp, by simp [callRequest]⟩ rfl).1

/-- C9, counterexample, at two payloads that decode to a non-empty array of
version "2.0" Requests of which one has id 1. The batch
`[{"jsonrpc":"2.0","id":1,"method":"fail"}]`: the handler returns a `*Error`
whose data `json.Marshal` cannot encode, and the output is the encoding of a
single Response with null id and error -32603. The batch `spacedBatchWire`,
which starts with a space: the output is the encoding of a single Response
with null id and error -32600. Neither output holds a Response for id 1. -/
theorem handler_batch_reply_counterexample :
    (scenarioLib.UnmarshalRequests failBatchWire = .ok [callRequest "fail"] ∧
      (callRequest "fail").Jsonrpc = "2.0" ∧ (callRequest "fail").Id ≠ none ∧
      Server.Handler scenarioLib scenarioServer failBatchWire =
        scenarioLib.marshalBytes (.response
          (errorResponse (-32603) "Internal error" "json: unsupported type: chan int")) ∧
      Server.Handler scenarioLib scenarioServer failBatchWire =
        some (errorWire "-32603" "Internal error" "json: unsupported type: chan int")) ∧
      (scenarioLib.UnmarshalRequests spacedBatchWire = .ok [callRequest "ok", notifyRequest] ∧
        (callRequest "ok").Jsonrpc = "2.0" ∧ notifyRequest.Jsonrpc = "2.0" ∧
        (callRequest "ok").Id ≠ none ∧
        Server.Handler scenarioLib scenarioServer spacedBatchWire =
          scenarioLib.marshalBytes (.response
            (errorResponse (-32600) "Invalid Request"
              "json: cannot unmarshal array into Go value of type jsonrpc.Request")) ∧
        Server.Handler scenarioLib scenarioServer spacedBatchWire =
          some (errorWire "-32600" "Invalid Request"
            "json: cannot unmarshal array into Go value of type jsonrpc.Request")) := by
  refine ⟨⟨rfl, rfl, by simp [callRequest], ?_, ?_⟩,
    ⟨rfl, rfl, rfl, by simp [callRequest], rfl, rfl⟩⟩
  · rw [handler_batch scenarioLib scenarioServer failBatchWire [callRequest "fail"] rfl rfl
      (by simp)]
    rfl
  · rw [handler_batch scenarioLib scenarioServer failBatchWire [callRequest "fail"] rfl rfl
      (by simp)]
    rfl

/-! ## Client -/

/-- C3, the code at a failing input: when the request encodes and the transport
returns non-nil bytes that do not decode in the shape of the input,
`Client.RawRequest` fills the synthesized Responses with the zero `Error`
(code 0, empty message), not with -32603: one Response for a scalar input,
one per Request with an id for a batch input. -/
theorem rawRequest_decode_failure_zero_error (lib : GoLib) (c : Client) :
    (∀ (request : Request) (requestByte responseByte e : String),
        lib.Marshal (.request request) = .ok requestByte →
        c.transport requestByte = some responseByte →
        lib.UnmarshalResponse (some responseByte) = .error e →
        c.RawRequest lib (.single request) =
          some (.single { Jsonrpc := request.Jsonrpc, Id := request.Id, Result := none,
                          Error := some { Code := 0, Message := "", Data := none } })) ∧
      (∀ (requests : List Request) (requestByte responseByte e : String),
        lib.Marshal (.requests requests) = .ok requestByte →
        c.transport requestByte = some responseByte →
        lib.UnmarshalResponses (some responseByte) = .error e →
        c.RawRequest lib (.batch requests) =
          some (.batch ((requests.filter (fun r => r.Id.isSome)).map
            (fun r => { Jsonrpc := r.Jsonrpc, Id := r.Id, Result := none,
                        Error := some { Code := 0, Message := "", Data := none } })))) := by
  constructor
  · intro request requestByte responseByte e hm ht hd
    simp [Client.RawRequest, Client.RawRequest.body, Client.RawRequest.deferred, hm, ht, hd]
  · intro requests requestByte responseByte e hm ht hd
    simp [Client.RawRequest, Client.RawRequest.body, Client.RawRequest.deferred, hm, ht, hd]

/-- Witness for C3: the transport answers the call `ping` with the bytes `[]`. -/
theorem rawRequest_decode_failure_zero_error_witness :
    (scenarioClient "[]").RawRequest scenarioLib (.single pingRequest) =
      some (.single { Jsonrpc := "2.0", Id := some (.int 1), Result := none,
                      Error := some { Code := 0, Message := "", Data := none } }) :=
  (rawRequest_decode_failure_zero_error scenarioLib (scenarioClient "[]")).1 pingRequest
    pingWire "[]" "json: cannot unmarshal array into Go value of type jsonrpc.Response"
    rfl rfl rfl

/-- C4, the code at a failing input: on the immediate path with a response
target, `Client.Request` returns no Error and stores nothing in the target
when the params cannot be encoded, and also when the Response has no error
and its result does not decode into the target. -/
theorem request_local_failure_returns_nil (lib : GoLib) (c : Client) (method : String)
    (params : Option GoValue) (t : GoType) :
    (∀ e : String, lib.Marshal (.value params) = .error e →
        (Client.Request.immediate lib c method params (some t)).rpcError = none ∧
          (Client.Request.immediate lib c method params (some t)).decoded = none) ∧
      (∀ (p : String) (jsonrpcResponse : Response) (e : String),
        lib.Marshal (.value params) = .ok p →
        (Client.Request.build c method true).2.RawRequest lib
            (.single { (Client.Request.build c method true).1 with Params := some p }) =
          some (.single jsonrpcResponse) →
        jsonrpcResponse.Error = none →
        lib.Unmarshal t jsonrpcResponse.Result = .error e →
        (Client.Request.immediate lib c method params (some t)).rpcError = none ∧
          (Client.Request.immediate lib c method params (some t)).decoded = none) := by
  constructor
  · intro e hm
    simp [Client.Request.immediate, hm]
  · intro p jsonrpcResponse e hm hraw herr hd
    simp [Client.Request.immediate, hm, hraw, Client.Request.finish, herr, hd]

/-- Witness for C4: `Request("ping", nil, &n, 0)` with `n` an `int`, answered
with `{"jsonrpc":"2.0","id":1,"result":"pong"}`. -/
theorem request_local_failure_returns_nil_witness :
    (Client.Request.immediate scenarioLib (scenarioClient pongWire) "ping" none
        (some .int)).rpcError = none ∧
      (Client.Request.immediate scenarioLib (scenarioClient pongWire) "ping" none
        (some .int)).decoded = none :=
  (request_local_failure_returns_nil scenarioLib (scenarioClient pongWire) "ping" none .int).2
    "null" { Jsonrpc := "2.0", Id := some (.float64 1), Result := some "\"pong\"", Error := none }
    "json: cannot unmarshal string into Go value of type int" rfl rfl rfl rfl

/-- What `ClientTransportHttp.Execute` returns, case by case: an outbound
payload that `json.Valid` rejects is answered with error -32600, whatever
`http.Post` and `io.ReadAll` would do; a failed post with -32000; a body read
in full that `json.Valid` rejects with -32000 as well; a read that fails and
hands back non-nil bytes with -32603; otherwise the body is returned unchanged. -/
theorem execute_classification (lib : GoLib) (ct : ClientTransportHttp) (request : String) :
    (lib.Valid request = false →
        ct.Execute lib request =
          lib.marshalBytes (.response (errorResponse (-32600) "Invalid Request" request)) ∧
        ∀ (post : String → String → String → Except String HttpResponse)
          (readAll : HttpResponse → Option String × Option String),
          ct.Execute { lib with Post := post, ReadAll := readAll } request =
            ct.Execute lib request) ∧
      (lib.Valid request = true →
        (∀ e : String, lib.Post ct.endpoint "application/json" request = .error e →
          ct.Execute lib request =
            lib.marshalBytes (.response (errorResponse (-32000) "Server error" e))) ∧
        (∀ (httpResponse : HttpResponse) (body : Option String),
          lib.Post ct.endpoint "application/json" request = .ok httpResponse →
          lib.ReadAll httpResponse = (body, none) → lib.Valid (body.getD "") = false →
          ct.Execute lib request =
            lib.marshalBytes
              (.response (errorResponse (-32000) "Server error" (body.getD "")))) ∧
        (∀ (httpResponse : HttpResponse) (read e : String),
          lib.Post ct.endpoint "application/json" request = .ok httpResponse →
          lib.ReadAll httpResponse = (some read, some e) →
          ct.Execute lib request =
            lib.marshalBytes (.response (errorResponse (-32603) "Internal error" e))) ∧
        (∀ (httpResponse : HttpResponse) (body : Option String),
          lib.Post ct.endpoint "application/json" request = .ok httpResponse →
          lib.ReadAll httpResponse = (body, none) → lib.Valid (body.getD "") = true →
          ct.Execute lib request = body)) := by
  refine ⟨fun hv => ⟨?_, fun post readAll => ?_⟩, fun hv => ⟨?_, ?_, ?_, ?_⟩⟩
  · simp [ClientTransportHttp.Execute, ClientTransportHttp.Execute.body,
      ClientTransportHttp.Execute.deferred, hv, errorResponse]
  · simp [ClientTransportHttp.Execute, ClientTransportHttp.Execute.body,
      ClientTransportHttp.Execute.deferred, hv, GoLib.marshalBytes]
  · intro e hpost
    simp [ClientTransportHttp.Execute, ClientTransportHttp.Execute.body,
      ClientTransportHttp.Execute.deferred, hv, hpost, errorResponse]
  · intro httpResponse body hpost hread hbody
    simp [ClientTransportHttp.Execute, ClientTransportHttp.Execute.body,
      ClientTransportHttp.Execute.deferred, hv, hpost, hread, hbody, errorResponse]
  · intro httpResponse read e hpost hread
    simp [ClientTransportHttp.Execute, ClientTransportHttp.Execute.body,
      ClientTransportHttp.Execute.deferred, hv, hpost, hread, errorResponse]
  · intro httpResponse body hpost hread hbody
    simp [ClientTransportHttp.Execute, ClientTransportHttp.Execute.body,
      ClientTransportHttp.Execute.deferred, hv, hpost, hread, hbody]

/-- The outbound payload `oops` is not valid JSON and is answered with -32600. -/
theorem execute_invalid_payload_example :
    ClientTransportHttp.Execute scenarioLib { endpoint := "http://localhost/rpc" } "oops" =
      some (errorWire "-32600" "Invalid Request" "oops") :=
  ((execute_classification scenarioLib { endpoint := "http://localhost/rpc" } "oops").1
    (by decide)).1.trans rfl

/-- C10, the code at a failing input: the valid payload `pingWire` is posted,
the body is read in full and is `oops`, which is not valid JSON; line 80 sets
`response` to nil, the deferred closure takes its second branch, and the
output is the encoding of a Response with error -32000, not -32603. -/
theorem execute_invalid_body_server_error :
    scenarioLib.Valid pingWire = true ∧
      scenarioLib.Post "http://localhost/rpc" "application/json" pingWire =
        .ok { handle := 0 } ∧
      scenarioLib.ReadAll { handle := 0 } = (some "oops", none) ∧
      scenarioLib.Valid "oops" = false ∧
      ClientTransportHttp.Execute scenarioLib { endpoint := "http://localhost/rpc" } pingWire =
        scenarioLib.marshalBytes (.response (errorResponse (-32000) "Server error" "oops")) ∧
      ClientTransportHttp.Execute scenarioLib { endpoint := "http://localhost/rpc" } pingWire =
        some (errorWire "-32000" "Server error" "oops") := by
  refine ⟨by decide, rfl, rfl, by decide, rfl, rfl⟩

/-! ## Server.Call: resolution, params and registration -/

/-- The frame `Server.Call` reaches for an unregistered method. -/
theorem call_body_unregistered (lib : GoLib) (s : Server) (request : Request)
    (hv : request.Jsonrpc = "2.0") (hm : s.HandlerMap request.Method = none) :
    Server.Call.body lib s request =
      { response := if request.Id.isSome then some Response.zero else none
        responseResult := none
        responseError := some { Code := -32601, Message := "Method not found",
                                Data := some (.string request.Method) } } := by
  unfold Server.Call.body
  simp only [hv, ne_eq, not_true_eq_false, if_false, hm]

/-- The frame `Server.Call` reaches when the params do not decode. -/
theorem call_body_bad_params (lib : GoLib) (s : Server) (request : Request) (handler : Handler)
    (e : String) (hv : request.Jsonrpc = "2.0")
    (hm : s.HandlerMap request.Method = some handler)
    (hp : Server.Call.decodeParams lib handler request = .error e) :
    Server.Call.body lib s request =
      { response := if request.Id.isSome then some Response.zero else none
        responseResult := none
        responseError := some { Code := -32602, Message := "Invalid params",
                                Data := some (.string e) } } := by
  unfold Server.Call.body
  simp only [hv, ne_eq, not_true_eq_false, if_false, hm, hp]

/-- C11: for a Request with version "2.0" and a non-null id whose method is not
a key of the registry, `Server.Call` returns a Response with that id, no
result and the error (-32601, "Method not found", the method name); the
Response is the same for every registry without that key, whatever handlers it
holds, so none is invoked. -/
theorem call_method_not_found (lib : GoLib) (s : Server) (request : Request)
    (hv : request.Jsonrpc = "2.0") (hid : request.Id ≠ none)
    (hm : s.HandlerMap request.Method = none) :
    Server.Call lib s request =
        some { Jsonrpc := request.Jsonrpc, Id := request.Id, Result := none,
               Error := some { Code := -32601, Message := "Method not found",
                               Data := some (.string request.Method) } } ∧
      ∀ (lib' : GoLib) (s' : Server), s'.HandlerMap request.Method = none →
        Server.Call lib' s' request = Server.Call lib s request := by
  have hsome : request.Id.isSome = true := Option.isSome_iff_ne_none.mpr hid
  have key : ∀ (l : GoLib) (t : Server), t.HandlerMap request.Method = none →
      Server.Call l t request =
        some { Jsonrpc := request.Jsonrpc, Id := request.Id, Result := none,
               Error := some { Code := -32601, Message := "Method not found",
                               Data := some (.string request.Method) } } := by
    intro l t ht
    unfold Server.Call
    rw [call_body_unregistered l t request hv ht]
    simp [Server.Call.deferred, hsome, Response.zero]
  exact ⟨key lib s hm, fun l t ht => (key l t ht).trans (key lib s hm).symm⟩

/-- Witness for C11: the method "missing" on the scenario registry. -/
theorem call_method_not_found_witness :
    Server.Call scenarioLib scenarioServer (callRequest "missing") =
      some { Jsonrpc := "2.0", Id := some (.float64 1), Result := none,
             Error := some { Code := -32601, Message := "Method not found",
                             Data := some (.string "missing") } } :=
  (call_method_not_found scenarioLib scenarioServer (callRequest "missing") rfl
    (by simp [callRequest]) rfl).1

/-- C14: every Response `Server.Call` returns carries the Request's id and has
exactly one of result and error: either the bytes `json.Marshal` returned for
a value and no error, or no result and an error. -/
theorem call_response_result_xor_error (lib : GoLib) (s : Server) (request : Request)
    (r : Response) (h : Server.Call lib s request = some r) :
    r.Id = request.Id ∧
      ((r.Error = none ∧ ∃ (v : GoValue) (b : String),
          lib.Marshal (.value (some v)) = .ok b ∧ r.Result = some b) ∨
        (r.Result = none ∧ r.Error.isSome)) := by
  unfold Server.Call Server.Call.deferred at h
  split at h
  · exact absurd h (by simp)
  · rename_i response hresp
    have hzero : response = Response.zero := by
      have := call_body_response lib s request
      rw [hresp] at this
      split at this
      · exact Option.some.inj this
      · split at this
        · exact Option.some.inj this
        · exact absurd this (by simp)
    subst hzero
    simp only at h
    split at h
    · rename_i v _ _
      split at h
      · have := Option.some.inj h
        subst this
        exact ⟨rfl, Or.inr ⟨rfl, rfl⟩⟩
      · rename_i b hb
        have := Option.some.inj h
        subst this
        exact ⟨rfl, Or.inl ⟨rfl, v, b, hb, rfl⟩⟩
    · have := Option.some.inj h
      subst this
      exact ⟨rfl, Or.inr ⟨rfl, rfl⟩⟩
    · have := Option.some.inj h
      subst this
      exact ⟨rfl, Or.inr ⟨rfl, rfl⟩⟩

/-- Witness for C14: the Response to the call "ok" of the scenario registry. -/
theorem call_response_result_xor_error_witness :
    doneResponse.Id = (callRequest "ok").Id ∧
      ((doneResponse.Error = none ∧ ∃ (v : GoValue) (b : String),
          scenarioLib.Marshal (.value (some v)) = .ok b ∧ doneResponse.Result = some b) ∨
        (doneResponse.Result = none ∧ doneResponse.Error.isSome)) :=
  call_response_result_xor_error scenarioLib scenarioServer (callRequest "ok") doneResponse rfl

/-- C19: for a Request with version "2.0", a non-null id and a registered
method: when the handler declares a parameter type and `json.Unmarshal` of the
params (nil when omitted) into a fresh value of that type fails with
diagnostic `e`, `Server.Call` returns the error (-32602, "Invalid params", `e`)
with no result, on every registry whose entry differs only in the handler
function, which is therefore not invoked; when the handler declares no
parameter type, the params are not decoded, the function is applied to nil,
and the Response does not depend on the params nor on the function's value
elsewhere. -/
theorem call_params_decoding (lib : GoLib) (s : Server) (request : Request) (handler : Handler)
    (hv : request.Jsonrpc = "2.0") (hid : request.Id ≠ none)
    (hm : s.HandlerMap request.Method = some handler) :
    (∀ (t : GoType) (e : String), handler.Request = some t →
        lib.Unmarshal t request.Params = .error e →
        Server.Call lib s request =
            some { Jsonrpc := request.Jsonrpc, Id := request.Id, Result := none,
                   Error := some { Code := -32602, Message := "Invalid params",
                                   Data := some (.string e) } } ∧
          ∀ (s' : Server) (f : HandlerFunc),
            s'.HandlerMap request.Method = some { handler with Function := f } →
            Server.Call lib s' request = Server.Call lib s request) ∧
      (handler.Request = none →
        Server.Call.decodeParams lib handler request = .ok none ∧
          (∀ params : Option String,
            Server.Call lib s { request with Params := params } = Server.Call lib s request) ∧
          ∀ (s' : Server) (handler' : Handler),
            s'.HandlerMap request.Method = some handler' → handler'.Request = none →
            handler'.Function none = handler.Function none →
            Server.Call lib s' request = Server.Call lib s request) := by
  have hsome : request.Id.isSome = true := Option.isSome_iff_ne_none.mpr hid
  constructor
  · intro t e ht he
    have key : ∀ (s' : Server) (f : HandlerFunc),
        s'.HandlerMap request.Method = some { handler with Function := f } →
        Server.Call lib s' request =
          some { Jsonrpc := request.Jsonrpc, Id := request.Id, Result := none,
                 Error := some { Code := -32602, Message := "Invalid params",
                                 Data := some (.string e) } } := by
      intro s' f hs'
      have hp : Server.Call.decodeParams lib { handler with Function := f } request =
          .error e := by
        simp [Server.Call.decodeParams, ht, he]
      unfold Server.Call
      rw [call_body_bad_params lib s' request _ e hv hs' hp]
      simp [Server.Call.deferred, hsome, Response.zero]
    have hself := key s handler.Function hm
    exact ⟨hself, fun s' f hs' => (key s' f hs').trans hself.symm⟩
  · intro hnone
    have hdec : ∀ (h : Handler) (rq : Request), h.Request = none →
        Server.Call.decodeParams lib h rq = .ok none := by
      intro h rq hh
      simp [Server.Call.decodeParams, hh]
    refine ⟨hdec handler request hnone, ?_, ?_⟩
    · intro params
      unfold Server.Call
      rw [call_body_invoke lib s { request with Params := params } handler none hv hm
          (hdec handler _ hnone),
        call_body_invoke lib s request handler none hv hm (hdec handler _ hnone)]
      rfl
    · intro s' handler' hs' hnone' hf
      unfold Server.Call
      rw [call_body_invoke lib s' request handler' none hv hs' (hdec handler' _ hnone'),
        call_body_invoke lib s request handler none hv hm (hdec handler _ hnone), hf]

/-- Witness for C19: the handler "sum" declares the type `int` and the call
omits the params. -/
theorem call_params_decoding_witness :
    Server.Call scenarioLib typedServer (callRequest "sum") =
      some { Jsonrpc := "2.0", Id := some (.float64 1), Result := none,
             Error := some { Code := -32602, Message := "Invalid params",
                             Data := some (.string "unexpected end of JSON input") } } :=
  ((call_params_decoding scenarioLib typedServer (callRequest "sum")
    { Request := some .int, Response := none, Function := fun p => (p, none) }
    rfl (by simp [callRequest]) rfl).1 .int "unexpected end of JSON input" rfl rfl).1

/-! ## Server.Handler: batch mode -/

/-- `Server.Call` does not use the array decoder. -/
theorem call_unmarshalRequests_irrelevant (lib : GoLib)
    (u : String → Except String (List Request)) (s : Server) (request : Request) :
    Server.Call { lib with UnmarshalRequests := u } s request = Server.Call lib s request := by
  rfl

/-- `Server.Handler` selects batch mode by the first byte of the payload.
When it is `[` and the payload decodes to a non-empty array, the
output is the encoding of the array of per-Request Responses (an Internal
error Response when the encoder fails). When it is not `[`, leading whitespace
included, the array decoder is not consulted: the payload is decoded as one
Request, and when that fails the output is the error Response of the Parse
stage. -/
theorem handler_batch_mode_by_first_byte (lib : GoLib) (s : Server) (payload : String) :
    (∀ requests : List Request, payload.data.head? = some '[' →
        lib.UnmarshalRequests payload = .ok requests → requests ≠ [] →
        Server.Handler lib s payload =
          match lib.Marshal (.responses (requests.filterMap (s.Call lib))) with
          | .ok b => some b
          | .error e => lib.marshalBytes (.response (errorResponse (-32603) "Internal error" e))) ∧
      (payload.data.head? ≠ some '[' →
        (∀ u : String → Except String (List Request),
          Server.Handler { lib with UnmarshalRequests := u } s payload =
            Server.Handler lib s payload) ∧
        ∀ e : String, payload.length ≠ 0 → lib.UnmarshalRequest payload = .error e →
          Server.Handler lib s payload =
            lib.marshalBytes (.response
              (if lib.Valid payload then errorResponse (-32600) "Invalid Request" e
               else errorResponse (-32700) "Parse error" e))) := by
  refine ⟨fun requests hfirst hdec hne => ?_, fun hfirst => ⟨fun u => ?_, fun e hlen he => ?_⟩⟩
  · rw [handler_batch lib s payload requests hfirst hdec hne]
    rfl
  · unfold Server.Handler Server.Handler.body
    by_cases hlen : payload.length = 0
    · simp [hlen, Server.Handler.deferred, GoLib.marshalBytes]
    · simp only [hlen, hfirst, if_false, decide_False]
      rfl
  · have hbody : Server.Handler.body lib s payload =
        { response := none, errorObject := some e, unmarshalError := true } := by
      simp [Server.Handler.body, hlen, hfirst, he]
    rw [Server.Handler, hbody, handler_deferred_unmarshal]
    split <;> rfl

/-- The first-byte rule on the batch of one call and one notification. -/
theorem handler_first_byte_example :
    Server.Handler scenarioLib scenarioServer mixedBatchWire = some doneBatchWire :=
  ((handler_batch_mode_by_first_byte scenarioLib scenarioServer mixedBatchWire).1
    [callRequest "ok", notifyRequest] rfl rfl (by simp)).trans rfl

/-- C16, the code at a failing input: `spacedBatchWire` is `mixedBatchWire`
after one space and decodes to the same non-empty array of Requests, yet
`Server.Handler` tests its first byte, decodes it as a single Request and
answers with the error Response -32600, not with the batch output it gives
for `mixedBatchWire`. -/
theorem handler_leading_space_rejected :
    spacedBatchWire = " " ++ mixedBatchWire ∧
      scenarioLib.UnmarshalRequests spacedBatchWire =
        scenarioLib.UnmarshalRequests mixedBatchWire ∧
      scenarioLib.UnmarshalRequests mixedBatchWire = .ok [callRequest "ok", notifyRequest] ∧
      Server.Handler scenarioLib scenarioServer mixedBatchWire = some doneBatchWire ∧
      Server.Handler scenarioLib scenarioServer spacedBatchWire =
        some (errorWire "-32600" "Invalid Request"
          "json: cannot unmarshal array into Go value of type jsonrpc.Request") ∧
      Server.Handler scenarioLib scenarioServer spacedBatchWire ≠
        Server.Handler scenarioLib scenarioServer mixedBatchWire := by
  have h1 : Server.Handler scenarioLib scenarioServer mixedBatchWire = some doneBatchWire := by
    rw [handler_batch scenarioLib scenarioServer mixedBatchWire [callRequest "ok", notifyRequest]
      rfl rfl (by simp)]
    rfl
  have h2 : Server.Handler scenarioLib scenarioServer spacedBatchWire =
      some (errorWire "-32600" "Invalid Request"
        "json: cannot unmarshal array into Go value of type jsonrpc.Request") := by
    rfl
  refine ⟨by decide, rfl, rfl, h1, h2, ?_⟩
  rw [h1, h2]
  decide

/-! ## Client.Request: the coalescing path -/

/-- The distribution loop panics on a Response array that starts with a
Response whose id is not nil and not a `float64`. -/
theorem distribute_head_not_float64 (m : Int → Option Chan) (value : Response)
    (rest : List Response) (v : GoValue) (hid : value.Id = some v)
    (hv : ∀ x : Rat, v ≠ .float64 x) :
    Client.Request.timer.distribute m (value :: rest) =
      .error ("interface conversion: interface {} is " ++ GoValue.typeName (some v) ++
        ", not float64") := by
  unfold Client.Request.timer.distribute Client.Request.timer.deliver
  rw [hid]
  cases v with
  | float64 x => exact absurd rfl (hv x)
  | int n => rfl
  | string t => rfl
  | bool b => rfl
  | other tag => rfl

/-- C15, the code at the claim's inputs: with a non-empty pending list whose
Requests carry the `int` ids the client assigns, and a transport reply that
fails to decode as a Response array, the Responses synthesized by
`Client.RawRequest` carry those `int` ids, and the distribution loop of the
timer goroutine panics on the first of them at the assertion `.(float64)`:
nothing is delivered and nothing is cleared. -/
theorem timer_decode_failure_panics (lib : GoLib) (c : Client) (requestByte e : String)
    (hne : c.batchRequestArray ≠ [])
    (hids : ∀ r ∈ c.batchRequestArray, ∃ n : Int, r.Id = some (.int n))
    (hm : lib.Marshal (.requests c.batchRequestArray) = .ok requestByte)
    (hd : lib.UnmarshalResponses (c.transport requestByte) = .error e) :
    Client.Request.timer lib c =
      .error "interface conversion: interface {} is int, not float64" := by
  cases hreqs : c.batchRequestArray with
  | nil => exact absurd hreqs hne
  | cons r0 rest =>
    obtain ⟨n, hn⟩ := hids r0 (by rw [hreqs]; exact List.mem_cons_self r0 rest)
    have hresp : ∃ tail : List Response, ∃ value : Response,
        Client.Request.timer.responses lib c = value :: tail ∧ value.Id = some (.int n) := by
      unfold Client.Request.timer.responses Client.RawRequest Client.RawRequest.body
      rw [hreqs] at hm ⊢
      simp only [hm, hd, Client.RawRequest.deferred]
      simp only [List.filter_cons, hn, Option.isSome_some, if_true, List.map_cons]
      exact ⟨_, _, rfl, rfl⟩
    obtain ⟨tail, value, hresp, hvid⟩ := hresp
    unfold Client.Request.timer
    rw [hresp, distribute_head_not_float64 c.batchResponseMap value tail (.int n) hvid
      (by intro x; simp)]
    rfl

/-- Witness for C15: the pending call `ping`, answered with a single object. -/
theorem timer_decode_failure_panics_witness :
    Client.Request.timer scenarioLib pendingClient =
      .error "interface conversion: interface {} is int, not float64" :=
  timer_decode_failure_panics scenarioLib pendingClient pingBatchWire
    "json: cannot unmarshal object into Go value of type []jsonrpc.Response"
    (by simp [pendingClient])
    (by intro r hr
        simp only [pendingClient, List.mem_singleton] at hr
        subst hr
        exact ⟨1, rfl⟩)
    rfl rfl

/-- C17, the code at the claim's inputs: with no response target and a positive
timeout the Request is built without an id, and once its params are encoded
the caller panics inside its critical section at the assertion `.(int)` on the
nil id. -/
theorem request_notification_coalesced_panics (lib : GoLib) (c : Client) (method : String)
    (params : Option GoValue) (timeout : Int) (p : String)
    (ht : timeout > 0) (hm : lib.Marshal (.value params) = .ok p) :
    (Client.Request.build c method false).1.Id = none ∧
      Client.Request lib c method params none timeout =
        .panicked "interface conversion: interface {} is nil, not int" := by
  refine ⟨rfl, ?_⟩
  unfold Client.Request Client.Request.traced
  rw [if_pos ht]
  unfold Client.Request.coalesced
  simp only [hm]
  rfl

/-- Witness for C17: `Request("notify", nil, nil, 50)` on a new client. -/
theorem request_notification_coalesced_panics_witness :
    Client.Request scenarioLib (scenarioClient pongWire) "notify" none none 50 =
      .panicked "interface conversion: interface {} is nil, not int" :=
  (request_notification_coalesced_panics scenarioLib (scenarioClient pongWire) "notify" none 50
    "null" (by decide) rfl).2

/-- C18, the code at a failing input: when the Response array holds a Response
whose id is a string, the distribution loop does not drop it: it panics at the
assertion `.(float64)` (or has stopped before reaching it), whatever the
waiter map holds. -/
theorem distribute_string_id_panics (m : Int → Option Chan) (before after : List Response)
    (value : Response) (id : String) (hid : value.Id = some (.string id)) :
    ∃ msg : String,
      Client.Request.timer.distribute m (before ++ value :: after) = .error msg := by
  induction before generalizing m with
  | nil =>
    exact ⟨_, distribute_head_not_float64 m value after (.string id) hid (by intro x; simp)⟩
  | cons b bs ih =>
    rw [List.cons_append]
    unfold Client.Request.timer.distribute
    cases hb : Client.Request.timer.deliver m b with
    | error msg => exact ⟨msg, rfl⟩
    | ok m' => exact ih m'

/-- Witness for C18: a Response with id "abc" and no waiter at all. -/
theorem distribute_string_id_panics_witness :
    ∃ msg : String,
      Client.Request.timer.distribute (fun _ => none)
        ([] ++ ({ Jsonrpc := "2.0", Id := some (.string "abc"), Result := some "1",
                  Error := none } : Response) :: []) = .error msg :=
  distribute_string_id_panics (fun _ => none) [] []
    { Jsonrpc := "2.0", Id := some (.string "abc"), Result := some "1", Error := none } "abc" rfl

/-! ## Concurrent callers: the coalescing window -/

/-- Replacing an element changes a count by what the old and the new element
contribute. -/
theorem countP_set_add {α : Type} (p : α → Bool) (l : List α) :
    ∀ (i : Nat) (x y : α), l[i]? = some x →
      (l.set i y).countP p + (if p x then 1 else 0) =
        l.countP p + (if p y then 1 else 0) := by
  induction l with
  | nil => intro i x y h; simp at h
  | cons a as ih =>
    intro i x y h
    cases i with
    | zero =>
      simp only [List.getElem?_cons_zero, Option.some.injEq] at h
      subst h
      simp only [List.set_cons_zero, List.countP_cons]
      omega
    | succ j =>
      simp only [List.getElem?_cons_succ] at h
      have := ih j x y h
      simp only [List.set_cons_succ, List.countP_cons]
      omega

/-- A list of at most one element with an element at index `i` is that element
alone, at index 0. -/
theorem singleton_of_length_le_one {α : Type} (l : List α) (i : Nat) (t : α)
    (hle : l.length ≤ 1) (h : l[i]? = some t) : l = [t] ∧ i = 0 := by
  cases l with
  | nil => simp at h
  | cons a as =>
    cases as with
    | nil =>
      cases i with
      | zero =>
        simp only [List.getElem?_cons_zero, Option.some.injEq] at h
        subst h
        exact ⟨rfl, rfl⟩
      | succ j => simp at h
    | cons b bs => simp at hle

/-- An element the predicate holds of is counted. -/
theorem countP_pos_of_getElem {α : Type} (p : α → Bool) (l : List α) (i : Nat) (x : α)
    (h : l[i]? = some x) (hp : p x = true) : 0 < l.countP p := by
  rw [List.countP_pos_iff]
  exact ⟨x, List.getElem?_mem h, hp⟩

/-- While a caller holds the gate, the gate is taken and no timer holds it. -/
theorem caller_gated (s : Sys) (hinv : s.Inv) (i : Nat) (pc : CallerPc)
    (h : s.callers[i]? = some pc) (hp : pc.holdsGate = true) :
    s.gate = true ∧ s.callers.countP CallerPc.holdsGate = 1 ∧
      s.timers.countP TimerPc.holdsGate = 0 := by
  have hpos := countP_pos_of_getElem CallerPc.holdsGate s.callers i pc h hp
  have hg := hinv.gate_count
  cases hgate : s.gate
  · rw [hgate] at hg
    simp only [Bool.false_eq_true, if_false] at hg
    omega
  · rw [hgate] at hg
    simp only [if_true] at hg
    exact ⟨rfl, by omega, by omega⟩

/-- While a timer holds the gate, the gate is taken and no caller holds it. -/
theorem timer_gated (s : Sys) (hinv : s.Inv) (i : Nat) (pc : TimerPc)
    (h : s.timers[i]? = some pc) (hp : pc.holdsGate = true) :
    s.gate = true ∧ s.callers.countP CallerPc.holdsGate = 0 := by
  have hpos := countP_pos_of_getElem TimerPc.holdsGate s.timers i pc h hp
  have hg := hinv.gate_count
  cases hgate : s.gate
  · rw [hgate] at hg
    simp only [Bool.false_eq_true, if_false] at hg
    omega
  · rw [hgate] at hg
    simp only [if_true] at hg
    exact ⟨rfl, by omega⟩

/-- No timer holds the gate: none is distributing. -/
theorem not_distributing_of_count (timers : List TimerPc)
    (h : timers.countP TimerPc.holdsGate = 0) : timers.any TimerPc.isDistributing = false := by
  rw [List.countP_eq_zero] at h
  rw [List.any_eq_false]
  intro t ht
  have := h t ht
  cases t <;> simp_all [TimerPc.holdsGate, TimerPc.isDistributing]

/-- The critical section of a caller: what it does to the pending state. -/
theorem enqueue_ok (c c' : Client) (request : Request) (channelId : Int) (launched : Bool)
    (h : Client.Request.enqueue c request = .ok (c', channelId, launched)) :
    c'.batchIsRun = true ∧ c'.batchRequestArray = c.batchRequestArray ++ [request] ∧
      launched = !c.batchIsRun := by
  unfold Client.Request.enqueue at h
  simp only at h
  split at h
  · exact absurd h (by simp)
  · split at h
    · rename_i hrun
      simp only [Except.ok.injEq, Prod.mk.injEq] at h
      obtain ⟨hc, _, hl⟩ := h
      subst hc
      simp only [Bool.not_eq_true] at hrun
      exact ⟨rfl, rfl, by rw [← hl, hrun]; rfl⟩
    · rename_i hrun
      simp only [Except.ok.injEq, Prod.mk.injEq] at h
      obtain ⟨hc, _, hl⟩ := h
      subst hc
      simp only [Bool.not_eq_true, Bool.not_eq_false] at hrun
      exact ⟨hrun, rfl, by rw [← hl, hrun]; rfl⟩

/-- Building a Request leaves the pending state alone. -/
theorem build_batch_state (c : Client) (method : String) (isCall : Bool) :
    (Client.Request.build c method isCall).2.batchIsRun = c.batchIsRun ∧
      (Client.Request.build c method isCall).2.batchRequestArray = c.batchRequestArray := by
  unfold Client.Request.build
  cases isCall <;> exact ⟨rfl, rfl⟩

/-- The invariant holds before any invocation. -/
theorem inv_init (transport : String → Option String) : (Sys.init transport).Inv := by
  constructor <;> simp [Sys.init, Sys.unsent, NewClient]

/-- A new invocation keeps the invariant. -/
theorem inv_invoke (lib : GoLib) (s : Sys) (method : String) (params : Option GoValue)
    (response : Option GoType) (hinv : s.Inv) : (s.invoke lib method params response).Inv := by
  obtain ⟨hrun, harr⟩ := build_batch_state s.client method response.isSome
  unfold Sys.invoke
  simp only
  split
  · exact
      { gate_count := hinv.gate_count
        timers_le := hinv.timers_le
        run_false := by rw [hrun]; exact hinv.run_false
        run_true := by rw [hrun]; exact hinv.run_true
        accounting := by
          have := hinv.accounting
          simp only [Sys.unsent, harr] at this ⊢
          exact this
        pending := by rw [hrun, harr]; exact hinv.pending }
  · exact
      { gate_count := by
          have := hinv.gate_count
          simp only [List.countP_append, List.countP_cons, List.countP_nil, CallerPc.holdsGate]
          simpa using this
        timers_le := hinv.timers_le
        run_false := by rw [hrun]; exact hinv.run_false
        run_true := by rw [hrun]; exact hinv.run_true
        accounting := by
          have := hinv.accounting
          simp only [Sys.unsent, harr] at this ⊢
          exact this
        pending := by rw [hrun, harr]; exact hinv.pending }

/-- A statement of a caller keeps the invariant. -/
theorem inv_callerStep (s s' : Sys) (i : Nat) (hinv : s.Inv)
    (h : s.callerStep i = some s') : s'.Inv := by
  unfold Sys.callerStep at h
  split at h
  · -- line 213: the gate is acquired
    rename_i request hpc
    split at h
    · exact absurd h (by simp)
    · rename_i hgate
      simp only [Option.some.injEq] at h
      subst h
      have hc := countP_set_add CallerPc.holdsGate s.callers i (.atAcquire request)
        (.inSection request) hpc
      simp only [CallerPc.holdsGate, Bool.false_eq_true, if_false, if_true] at hc
      have hgf : s.gate = false := by simpa using hgate
      have hg := hinv.gate_count
      rw [hgf] at hg
      simp only [Bool.false_eq_true, if_false] at hg
      exact
        { gate_count := by
            show (s.callers.set i (.inSection request)).countP CallerPc.holdsGate +
              s.timers.countP TimerPc.holdsGate = 1
            omega
          timers_le := hinv.timers_le
          run_false := hinv.run_false
          run_true := hinv.run_true
          accounting := hinv.accounting
          pending := hinv.pending }
  · -- lines 214-221: the critical section
    rename_i request hpc
    obtain ⟨hgate, hcallers, htimers⟩ := caller_gated s hinv i (.inSection request) hpc rfl
    have hnd := not_distributing_of_count s.timers htimers
    have hacc := hinv.accounting
    simp only [Sys.unsent, hnd, Bool.false_eq_true, if_false] at hacc
    split at h
    · -- the assertion `.(int)` panics
      simp only [Option.some.injEq] at h
      subst h
      exact
        { gate_count := hinv.gate_count
          timers_le := hinv.timers_le
          run_false := hinv.run_false
          run_true := hinv.run_true
          accounting := by
            simp only [Sys.unsent, hnd, Bool.false_eq_true, if_false]
            rw [← List.append_assoc, hacc]
          pending := by intro hcr; exact absurd hcr (by simp) }
    · rename_i c channelId launched henq
      obtain ⟨hrun', harr', hlaunched⟩ := enqueue_ok s.client c request channelId launched henq
      simp only [Option.some.injEq] at h
      subst h
      have hc := countP_set_add CallerPc.holdsGate s.callers i (.inSection request)
        (.atRelease channelId) hpc
      simp only [CallerPc.holdsGate, if_true] at hc
      cases hrun : s.client.batchIsRun
      · -- no timer is running: one is launched
        have hempty : s.timers = [] := by
          have hall := hinv.run_false hrun
          cases htl : s.timers with
          | nil => rfl
          | cons t ts =>
            have ht := hall t (by rw [htl]; exact List.mem_cons_self t ts)
            rw [htl, ht] at htimers
            simp [TimerPc.holdsGate] at htimers
        have hl : launched = true := by rw [hlaunched, hrun]; rfl
        subst hl
        simp only [if_true, hempty, List.nil_append]
        exact
          { gate_count := by
              have hg := hinv.gate_count
              simp only [hempty, List.countP_nil, hgate, if_true] at hg
              simp only [List.countP_cons, List.countP_nil, TimerPc.holdsGate, hgate, if_true,
                Bool.false_eq_true, if_false]
              omega
            timers_le := by simp
            run_false := by intro hf; rw [hrun'] at hf; exact absurd hf (by simp)
            run_true := fun _ => ⟨.sleeping, rfl, by simp⟩
            accounting := by
              simp only [Sys.unsent, List.any_cons, List.any_nil, TimerPc.isDistributing,
                Bool.or_self, Bool.false_eq_true, if_false, harr']
              rw [← List.append_assoc, hacc]
            pending := fun _ _ => hrun' }
      · -- a timer is running: the Request joins its window
        have hl : launched = false := by rw [hlaunched, hrun]; rfl
        subst hl
        simp only [Bool.false_eq_true, if_false]
        exact
          { gate_count := by
              have hg := hinv.gate_count
              simp only [hgate, if_true] at hg ⊢
              omega
            timers_le := hinv.timers_le
            run_false := by intro hf; rw [hrun'] at hf; exact absurd hf (by simp)
            run_true := fun _ => hinv.run_true hrun
            accounting := by
              simp only [Sys.unsent, hnd, Bool.false_eq_true, if_false, harr']
              rw [← List.append_assoc, hacc]
            pending := fun _ _ => hrun' }
  · -- line 262: the gate is released
    rename_i channelId hpc
    obtain ⟨hgate, hcallers, htimers⟩ := caller_gated s hinv i (.atRelease channelId) hpc rfl
    simp only [Option.some.injEq] at h
    subst h
    have hc := countP_set_add CallerPc.holdsGate s.callers i (.atRelease channelId)
      (.atReceive channelId) hpc
    simp only [CallerPc.holdsGate, Bool.false_eq_true, if_false, if_true] at hc
    exact
      { gate_count := by simp only [Bool.false_eq_true, if_false]; omega
        timers_le := hinv.timers_le
        run_false := hinv.run_false
        run_true := hinv.run_true
        accounting := hinv.accounting
        pending := hinv.pending }
  · -- line 265: the waiter entry is deleted
    rename_i channelId response hpc
    simp only [Option.some.injEq] at h
    subst h
    have hc := countP_set_add CallerPc.holdsGate s.callers i (.received channelId response)
      .returned hpc
    simp only [CallerPc.holdsGate, Bool.false_eq_true, if_false] at hc
    exact
      { gate_count := by
          have hg := hinv.gate_count
          simp only [Nat.add_zero] at hc
          rw [hc]
          exact hg
        timers_le := hinv.timers_le
        run_false := hinv.run_false
        run_true := hinv.run_true
        accounting := hinv.accounting
        pending := hinv.pending }
  · exact absurd h (by simp)

/-- The invariant after a timer moved from one point to another without
touching the gate, the pending state or the history. -/
theorem inv_timer_move (s : Sys) (hinv : s.Inv) (t t' : TimerPc) (client : Client)
    (callers : List CallerPc) (htimers : s.timers = [t])
    (hgate : t'.holdsGate = t.holdsGate) (hdist : t'.isDistributing = t.isDistributing)
    (hrel : t ≠ .atRelease) (hrel' : t' ≠ .atRelease)
    (hrun : client.batchIsRun = s.client.batchIsRun)
    (harr : client.batchRequestArray = s.client.batchRequestArray)
    (hcallers : callers.countP CallerPc.holdsGate = s.callers.countP CallerPc.holdsGate) :
    ({ s with client := client, callers := callers, timers := [t'] } : Sys).Inv := by
  exact
    { gate_count := by
        have hg := hinv.gate_count
        simp only [htimers, List.countP_cons, List.countP_nil] at hg
        simp only [List.countP_cons, List.countP_nil, hgate, hcallers]
        exact hg
      timers_le := by simp
      run_false := by
        intro hf
        rw [hrun] at hf
        have := hinv.run_false hf t (by rw [htimers]; exact List.mem_singleton_self t)
        exact absurd this hrel
      run_true := fun _ => ⟨t', rfl, hrel'⟩
      accounting := by
        have := hinv.accounting
        simp only [Sys.unsent, htimers, List.any_cons, List.any_nil, Bool.or_false] at this
        simp only [Sys.unsent, List.any_cons, List.any_nil, Bool.or_false, hdist, harr]
        exact this
      pending := by
        intro hcr hne
        rw [hrun]
        rw [harr] at hne
        exact hinv.pending hcr hne }

/-- A statement of a timer keeps the invariant. -/
theorem inv_timerStep (lib : GoLib) (s s' : Sys) (i receiver : Nat) (hinv : s.Inv)
    (h : s.timerStep lib i receiver = some s') : s'.Inv := by
  unfold Sys.timerStep at h
  split at h
  · -- line 224: the sleep ends
    rename_i hpc
    obtain ⟨htimers, hi⟩ := singleton_of_length_le_one s.timers i _ hinv.timers_le hpc
    subst hi
    simp only [Option.some.injEq] at h
    subst h
    simp only [htimers, List.set_cons_zero]
    exact inv_timer_move s hinv .sleeping .atAcquire s.client s.callers htimers rfl rfl
      (by simp) (by simp) rfl rfl rfl
  · -- line 226: the gate is acquired
    rename_i hpc
    obtain ⟨htimers, hi⟩ := singleton_of_length_le_one s.timers i _ hinv.timers_le hpc
    subst hi
    split at h
    · exact absurd h (by simp)
    · rename_i hgate
      have hgf : s.gate = false := by simpa using hgate
      simp only [Option.some.injEq] at h
      subst h
      simp only [htimers, List.set_cons_zero]
      have hg := hinv.gate_count
      rw [hgf, htimers] at hg
      simp only [List.countP_cons, List.countP_nil, TimerPc.holdsGate, Bool.false_eq_true,
        if_false] at hg
      have hrunT : s.client.batchIsRun = true := by
        cases hr : s.client.batchIsRun
        · have := hinv.run_false hr .atAcquire (by rw [htimers]; exact List.mem_singleton_self _)
          exact absurd this (by simp)
        · rfl
      exact
        { gate_count := by
            simp only [List.countP_cons, List.countP_nil, TimerPc.holdsGate, if_true]
            omega
          timers_le := by simp
          run_false := by intro hf; rw [hrunT] at hf; exact absurd hf (by simp)
          run_true := fun _ => ⟨.atSend, rfl, by simp⟩
          accounting := by
            have := hinv.accounting
            simp only [Sys.unsent, htimers, List.any_cons, List.any_nil, Bool.or_false,
              TimerPc.isDistributing] at this
            simp only [Sys.unsent, List.any_cons, List.any_nil, Bool.or_false,
              TimerPc.isDistributing]
            exact this
          pending := hinv.pending }
  · -- lines 228-244: the batch is sent
    rename_i hpc
    obtain ⟨htimers, hi⟩ := singleton_of_length_le_one s.timers i _ hinv.timers_le hpc
    subst hi
    simp only [Option.some.injEq] at h
    subst h
    simp only [htimers, List.set_cons_zero]
    have hrunT : s.client.batchIsRun = true := by
      cases hr : s.client.batchIsRun
      · have := hinv.run_false hr .atSend (by rw [htimers]; exact List.mem_singleton_self _)
        exact absurd this (by simp)
      · rfl
    exact
      { gate_count := by
          have hg := hinv.gate_count
          simp only [htimers, List.countP_cons, List.countP_nil, TimerPc.holdsGate] at hg
          simp only [List.countP_cons, List.countP_nil, TimerPc.holdsGate]
          exact hg
        timers_le := by simp
        run_false := by intro hf; rw [hrunT] at hf; exact absurd hf (by simp)
        run_true := fun _ => ⟨_, rfl, by simp⟩
        accounting := by
          have := hinv.accounting
          simp only [Sys.unsent, htimers, List.any_cons, List.any_nil, Bool.or_false,
            TimerPc.isDistributing, Bool.false_eq_true, if_false] at this
          simp only [Sys.unsent, List.any_cons, List.any_nil, Bool.or_false,
            TimerPc.isDistributing, if_true, List.append_nil, List.flatten_append,
            List.flatten_cons, List.flatten_nil]
          exact this
        pending := hinv.pending }
  · -- lines 256-257: the loop is over, the pending state is reset
    rename_i hpc
    obtain ⟨htimers, hi⟩ := singleton_of_length_le_one s.timers i _ hinv.timers_le hpc
    subst hi
    simp only [Option.some.injEq] at h
    subst h
    simp only [htimers, List.set_cons_zero]
    exact
      { gate_count := by
          have hg := hinv.gate_count
          simp only [htimers, List.countP_cons, List.countP_nil, TimerPc.holdsGate] at hg
          simp only [List.countP_cons, List.countP_nil, TimerPc.holdsGate]
          exact hg
        timers_le := by simp
        run_false := by intro _ t ht; simpa using ht
        run_true := by intro hf; exact absurd hf (by simp)
        accounting := by
          have := hinv.accounting
          simp only [Sys.unsent, htimers, List.any_cons, List.any_nil, Bool.or_false,
            TimerPc.isDistributing, if_true, List.append_nil] at this
          simp only [Sys.unsent, List.any_cons, List.any_nil, Bool.or_false,
            TimerPc.isDistributing, Bool.false_eq_true, if_false, List.append_nil]
          exact this
        pending := by intro _ hne; exact absurd rfl hne }
  · -- lines 246-254: one turn of the loop
    rename_i value rest hpc
    obtain ⟨htimers, hi⟩ := singleton_of_length_le_one s.timers i _ hinv.timers_le hpc
    subst hi
    have hmove : ∀ (client : Client) (callers : List CallerPc),
        client.batchIsRun = s.client.batchIsRun →
        client.batchRequestArray = s.client.batchRequestArray →
        callers.countP CallerPc.holdsGate = s.callers.countP CallerPc.holdsGate →
        ({ s with client := client, callers := callers,
                  timers := [.distributing rest] } : Sys).Inv :=
      fun client callers hrun harr hcallers =>
        inv_timer_move s hinv (.distributing (value :: rest)) (.distributing rest) client callers
          htimers rfl rfl (by simp) (by simp) hrun harr hcallers
    split at h
    · split at h
      · -- the assertion `.(float64)` panics
        simp only [Option.some.injEq] at h
        subst h
        exact
          { gate_count := hinv.gate_count
            timers_le := hinv.timers_le
            run_false := hinv.run_false
            run_true := hinv.run_true
            accounting := hinv.accounting
            pending := by intro hcr; exact absurd hcr (by simp) }
      · simp only at h
        split at h
        · -- no waiter under that key: the Response is dropped
          simp only [Option.some.injEq] at h
          subst h
          simp only [htimers, List.set_cons_zero]
          exact hmove s.client s.callers rfl rfl rfl
        · split at h
          · rename_i k hrecv
            split at h
            · -- the waiter receives
              simp only [Option.some.injEq] at h
              subst h
              simp only [htimers, List.set_cons_zero]
              have hc := countP_set_add CallerPc.holdsGate s.callers receiver (.atReceive k)
                (.received k value) hrecv
              simp only [CallerPc.holdsGate, Bool.false_eq_true, if_false, Nat.add_zero] at hc
              exact hmove _ _ rfl rfl hc
            · exact absurd h (by simp)
          · exact absurd h (by simp)
    · -- nil id: the Response is skipped
      simp only [Option.some.injEq] at h
      subst h
      simp only [htimers, List.set_cons_zero]
      exact hmove s.client s.callers rfl rfl rfl
  · -- line 258: the gate is released and the goroutine ends
    rename_i hpc
    obtain ⟨htimers, hi⟩ := singleton_of_length_le_one s.timers i _ hinv.timers_le hpc
    subst hi
    simp only [Option.some.injEq] at h
    subst h
    simp only [htimers, List.eraseIdx_cons_zero]
    obtain ⟨hgate, hcallers⟩ := timer_gated s hinv 0 .atRelease hpc rfl
    have hrunF : s.client.batchIsRun = false := by
      cases hr : s.client.batchIsRun
      · rfl
      · obtain ⟨t, ht, hne⟩ := hinv.run_true hr
        rw [htimers] at ht
        simp only [List.cons.injEq, and_true] at ht
        exact absurd ht.symm hne
    exact
      { gate_count := by
          simp only [List.countP_nil, Bool.false_eq_true, if_false]
          omega
        timers_le := by simp
        run_false := by intro _ t ht; simp at ht
        run_true := by intro hf; rw [hrunF] at hf; exact absurd hf (by simp)
        accounting := by
          have := hinv.accounting
          simp only [Sys.unsent, htimers, List.any_cons, List.any_nil, Bool.or_false,
            TimerPc.isDistributing, Bool.false_eq_true, if_false] at this
          simp only [Sys.unsent, List.any_nil, Bool.false_eq_true, if_false]
          exact this
        pending := hinv.pending }
  · exact absurd h (by simp)

/-- Every step keeps the invariant. -/
theorem inv_step (lib : GoLib) (s s' : Sys) (a : Action) (hinv : s.Inv)
    (h : s.step lib a = some s') : s'.Inv := by
  unfold Sys.step at h
  split at h
  · exact absurd h (by simp)
  · split at h
    · simp only [Option.some.injEq] at h
      subst h
      exact inv_invoke lib s _ _ _ hinv
    · exact inv_callerStep s s' _ hinv h
    · exact inv_timerStep lib s s' _ _ hinv h

/-- Every schedule keeps the invariant. -/
theorem inv_run (lib : GoLib) (schedule : List Action) :
    ∀ s s' : Sys, s.Inv → Sys.run lib s schedule = some s' → s'.Inv := by
  induction schedule with
  | nil =>
    intro s s' hinv h
    simp only [Sys.run, Option.some.injEq] at h
    subst h
    exact hinv
  | cons a rest ih =>
    intro s s' hinv h
    unfold Sys.run at h
    split at h
    · exact absurd h (by simp)
    · rename_i s1 hs1
      exact ih s1 s' (inv_step lib s s1 a hinv hs1) h

/-- In every state that a schedule of concurrent `Client.Request`
invocations with a positive timeout reaches from a client created by
`NewClient`: at most one timer goroutine is alive; the batches sent so far,
one after the other, followed by the Requests appended and not yet sent, are
the Requests appended so far, in order, so none is lost and none is sent
twice; while the program has not panicked, Requests not yet sent have exactly
one timer alive, with its send ahead; and that send hands over all of them. -/
theorem coalescing_invariant (lib : GoLib) (transport : String → Option String)
    (schedule : List Action) (s : Sys)
    (h : Sys.run lib (Sys.init transport) schedule = some s) :
    s.timers.length ≤ 1 ∧
      s.sent.flatten ++ s.unsent = s.appended ∧
      (s.crashed = false → s.unsent ≠ [] →
        s.timers = [.sleeping] ∨ s.timers = [.atAcquire] ∨ s.timers = [.atSend]) ∧
      ∀ (i receiver : Nat) (s' : Sys), s.timers[i]? = some .atSend →
        s.step lib (.timer i receiver) = some s' →
        s'.sent = s.sent ++ [s.unsent] ∧ s'.unsent = [] := by
  have hinv := inv_run lib schedule (Sys.init transport) s (inv_init transport) h
  refine ⟨hinv.timers_le, hinv.accounting, ?_, ?_⟩
  · intro hcr hne
    have harr : s.client.batchRequestArray ≠ [] := by
      intro hnil
      apply hne
      unfold Sys.unsent
      split
      · rfl
      · exact hnil
    obtain ⟨t, ht, hrel⟩ := hinv.run_true (hinv.pending hcr harr)
    rw [ht]
    cases t with
    | sleeping => exact Or.inl rfl
    | atAcquire => exact Or.inr (Or.inl rfl)
    | atSend => exact Or.inr (Or.inr rfl)
    | distributing rest => simp [Sys.unsent, TimerPc.isDistributing, ht] at hne
    | atRelease => exact absurd rfl hrel
  · intro i receiver s' hpc hstep
    obtain ⟨htimers, hi⟩ := singleton_of_length_le_one s.timers i _ hinv.timers_le hpc
    unfold Sys.step at hstep
    split at hstep
    · exact absurd hstep (by simp)
    · simp only [Sys.timerStep, hpc, Option.some.injEq] at hstep
      subst hstep
      simp [Sys.unsent, htimers, hi, TimerPc.isDistributing]

/-- C20, the code at a failing interleaving: a call starts a window (its
Request is appended, the timer is launched and sleeps, the gate is released),
then a notification with a positive timeout takes the gate, appends its
Request and panics at line 217 on its nil id. The program has stopped with the
gate held, the timer still asleep, both Requests appended and none sent; no
action can follow. Without the notification the timer wakes, takes the gate
and hands the batch with the call to `RawRequest`. -/
theorem coalescing_notification_crash :
    (Sys.run scenarioLib (Sys.init (fun _ => some pongWire)) crashSchedule).map
        (fun s => (s.crashed, s.gate, s.timers, s.sent, s.appended, s.client.batchRequestArray)) =
      some (true, true, [.sleeping], [], [pingRequest, notifyNullRequest],
        [pingRequest, notifyNullRequest]) ∧
      (∀ a : Action,
        (Sys.run scenarioLib (Sys.init (fun _ => some pongWire)) crashSchedule).bind
          (fun s => s.step scenarioLib a) = none) ∧
      (Sys.run scenarioLib (Sys.init (fun _ => some pongWire)) sendSchedule).map
          (fun s => (s.crashed, s.sent, s.appended)) =
        some (false, [[pingRequest]], [pingRequest]) := by
  refine ⟨rfl, fun a => ?_, rfl⟩
  have h : (Sys.run scenarioLib (Sys.init (fun _ => some pongWire)) crashSchedule).map
      (fun s => s.crashed) = some true := rfl
  cases hr : Sys.run scenarioLib (Sys.init (fun _ => some pongWire)) crashSchedule with
  | none => rfl
  | some s =>
    rw [hr] at h
    simp only [Option.map_some', Option.some.injEq] at h
    simp [Sys.step, h]

/-- The invariant on the scenario schedule, two calls in one window. -/
theorem coalescing_invariant_example :
    ∃ s : Sys, Sys.run scenarioLib (Sys.init (fun _ => some pongWire)) scenarioSchedule = some s ∧
      s.timers.length ≤ 1 ∧ s.sent.flatten ++ s.unsent = s.appended := by
  obtain ⟨s, hs⟩ := Option.isSome_iff_exists.mp
    (show (Sys.run scenarioLib (Sys.init (fun _ => some pongWire)) scenarioSchedule).isSome = true
      from rfl)
  exact ⟨s, hs,
    (coalescing_invariant scenarioLib (fun _ => some pongWire) scenarioSchedule s hs).1,
    (coalescing_invariant scenarioLib (fun _ => some pongWire) scenarioSchedule s hs).2.1⟩

end jsonrpc
